import Mathlib

/-!
Verification of the Hadoop JobHistory MCP server (`jobhistory_mcp.py`)
against its natural-language specification.

The Python source is shallowly embedded: pure helpers become Lean
functions, Python exceptions become an explicit `Except PyExc` result,
JSON payloads become an inductive `Json` value, and each tool handler
becomes a function of its validated input together with the outcomes of
the upstream fetches it performs (the HTTP effects are passed in as
`Except PyExc Json` / `Except PyExc String` arguments, mirroring the
sequential `await _make_request(...)` calls of the source).

Module-level configuration read from the environment (`REQUEST_TIMEOUT`,
`JOBHISTORY_URL`, `NODEMANAGER_PORT`) is embedded at its default value,
matching the constants of the source file.
-/

namespace JobHistoryMCP

/-- Python exception values that can flow through the tool handlers.
`httpStatusError`, `timeoutException` and `connectError` model the three
`httpx` exception classes the code distinguishes; the remaining
constructors model builtin exception classes raised by operations the
code performs (attribute access on non-dicts, bad format operands,
calendar conversion, float overflow).  Each carries the `str(e)` text
used by the generic branch of `_handle_error`. -/
inductive PyExc where
  | httpStatusError (code : Nat)
  | timeoutException
  | connectError (msg : String)
  | valueError (msg : String)
  | osError (msg : String)
  | overflowError (msg : String)
  | attributeError (msg : String)
  | typeError (msg : String)
  deriving DecidableEq, Repr

/-- Python type name of the exception, as `type(e).__name__`. -/
def pyExcName : PyExc → String
  | .httpStatusError _ => "HTTPStatusError"
  | .timeoutException => "TimeoutException"
  | .connectError _ => "ConnectError"
  | .valueError _ => "ValueError"
  | .osError _ => "OSError"
  | .overflowError _ => "OverflowError"
  | .attributeError _ => "AttributeError"
  | .typeError _ => "TypeError"

/-- Message text of the exception, as `str(e)`. -/
def pyExcStr : PyExc → String
  | .httpStatusError code => "HTTP status error " ++ toString code
  | .timeoutException => "timed out"
  | .connectError m => m
  | .valueError m => m
  | .osError m => m
  | .overflowError m => m
  | .attributeError m => m
  | .typeError m => m

/-- JSON values, as produced by `json.loads` / `response.json()`.
Numbers are modelled as integers: every numeric field the server reads
or writes is an integer (timestamps, counts, counter values, byte
positions); float payloads do not occur in the modelled behaviour. -/
inductive Json where
  | null
  | bool (b : Bool)
  | num (n : Int)
  | str (s : String)
  | arr (elems : List Json)
  | obj (entries : List (String × Json))

mutual

/-- Structural equality test for `Json` (Python `==` on parsed values). -/
def Json.beq : Json → Json → Bool
  | .null, .null => true
  | .bool a, .bool b => a == b
  | .num a, .num b => a == b
  | .str a, .str b => a == b
  | .arr a, .arr b => Json.beqList a b
  | .obj a, .obj b => Json.beqEntries a b
  | _, _ => false

/-- Pointwise equality of JSON arrays. -/
def Json.beqList : List Json → List Json → Bool
  | [], [] => true
  | a :: as, b :: bs => Json.beq a b && Json.beqList as bs
  | _, _ => false

/-- Pointwise equality of JSON object entry lists. -/
def Json.beqEntries : List (String × Json) → List (String × Json) → Bool
  | [], [] => true
  | (ka, va) :: as, (kb, vb) :: bs =>
      ka == kb && Json.beq va vb && Json.beqEntries as bs
  | _, _ => false

end

/-- Python truthiness (`bool(x)`) of a parsed JSON value: `None`, `False`,
`0`, `""`, `[]` and `\x7b\x7d` are falsy, everything else truthy. -/
def Json.pyTruthy : Json → Bool
  | .null => false
  | .bool b => b
  | .num n => n != 0
  | .str s => !s.isEmpty
  | .arr l => !l.isEmpty
  | .obj l => !l.isEmpty

/-- First value bound to key `k` in an entry list (Python dicts hold each
key once, so first match equals the dict lookup). -/
def jsonLookup (k : String) : List (String × Json) → Option Json
  | [] => none
  | (k2, v) :: rest => if k2 = k then some v else jsonLookup k rest

/-- Python `d.get(k, default)`: succeeds only on a dict, raising
`AttributeError` on any other receiver exactly as `.get` does. -/
def Json.pyGetD (j : Json) (k : String) (dflt : Json) : Except PyExc Json :=
  match j with
  | .obj entries => .ok ((jsonLookup k entries).getD dflt)
  | _ => .error (.attributeError "object has no attribute get")

/-- Python `d.get(k)` (default `None`). -/
def Json.pyGet1 (j : Json) (k : String) : Except PyExc Json :=
  j.pyGetD k .null

/-- Python `str(x)` on a parsed JSON value, as interpolated by f-strings. -/
def Json.pyStrOf : Json → String
  | .null => "None"
  | .bool b => if b then "True" else "False"
  | .num n => toString n
  | .str s => s
  | .arr _ => "<list>"
  | .obj _ => "<dict>"

/-- Requires the value to be a Python `str` (e.g. to call `str` methods
such as `rsplit`); any other type raises `AttributeError`. -/
def Json.asStr : Json → Except PyExc String
  | .str s => .ok s
  | j => .error (.attributeError ("not a str: " ++ j.pyStrOf))

/-! ## Module configuration (defaults of the source file) -/

/-- Default of the `JOBHISTORY_URL` environment variable. -/
def JOBHISTORY_BASE_URL : String := "https://jobhistory.hellobike.cn/ws/v1/history"

/-- Default of the `NODEMANAGER_PORT` environment variable. -/
def NODEMANAGER_PORT : String := "8052"

/-- The string rendering of `REQUEST_TIMEOUT` (the float `30.0`). -/
def REQUEST_TIMEOUT_STR : String := "30.0"

/-- `_get_logs_base_url`: scheme and netloc of `JOBHISTORY_BASE_URL`
with the path replaced by `/jobhistory/logs`. -/
def LOGS_BASE_URL : String := "https://jobhistory.hellobike.cn/jobhistory/logs"

/-! ## `_handle_error` -/

/-- `_handle_error`: converts a caught exception into the user-facing
diagnostic string, with dedicated messages for HTTP statuses 404, 403,
401, 500 and 503, a generic HTTP message for other statuses, dedicated
messages for timeout and connection failure, and a generic
`type(e).__name__ - str(e)` message otherwise. -/
def handle_error (e : PyExc) : String :=
  match e with
  | .httpStatusError status_code =>
      if status_code = 404 then
        "错误：资源未找到。请检查 ID 是否正确，或者该作业/任务可能已被清理。"
      else if status_code = 403 then
        "错误：权限不足，无法访问该资源。请检查访问权限配置。"
      else if status_code = 401 then
        "错误：认证失败。如果启用了安全模式，请检查认证配置。"
      else if status_code = 500 then
        "错误：服务器内部错误。请检查 JobHistory Server 日志。"
      else if status_code = 503 then
        "错误：服务暂时不可用。JobHistory Server 可能正在启动或过载。"
      else
        "错误：API 请求失败，HTTP 状态码 " ++ toString status_code ++ "。"
  | .timeoutException =>
      "错误：请求超时（" ++ REQUEST_TIMEOUT_STR ++ "秒）。请检查网络连接或增加超时时间。"
  | .connectError _ =>
      "错误：无法连接到 JobHistory Server (" ++ JOBHISTORY_BASE_URL ++
        ")。\n请检查：\n1. 服务是否已启动\n2. 地址和端口是否正确\n3. 网络是否可达"
  | e2 => "错误：" ++ pyExcName e2 ++ " - " ++ pyExcStr e2

/-- The `try ... except Exception as e: return _handle_error(e)` frame
shared by every tool handler. -/
def runHandler (body : Except PyExc String) : String :=
  match body with
  | .ok s => s
  | .error e => handle_error e

/-! ## `_format_duration` -/

/-- Left-pad a nonnegative integer to two digits (strftime zero padding). -/
def pad2 (n : Int) : String :=
  if n < 10 then "0" ++ toString n else toString n

/-- Python floor division `//`. -/
def pyFloorDiv (a b : Int) : Int := Int.fdiv a b

/-- Python modulo `%` (result has the sign of the divisor, which is
`Int.emod`, the `%` of Lean integers). -/
def pyMod (a b : Int) : Int := a % b

/-- `_format_duration`: `"N/A"` for `ms <= 0` (Python guard
`not ms or ms <= 0`), else three tiers over whole seconds
`ms // 1000`: below 60 seconds-only, below 3600 minutes+seconds, else
hours+minutes+seconds. -/
def _format_duration (ms : Int) : String :=
  if ms ≤ 0 then "N/A"
  else
    let seconds := pyFloorDiv ms 1000
    if seconds < 60 then toString seconds ++ "秒"
    else if seconds < 3600 then
      let minutes := pyFloorDiv seconds 60
      let secs := pyMod seconds 60
      toString minutes ++ "分" ++ toString secs ++ "秒"
    else
      let hours := pyFloorDiv seconds 3600
      let minutes := pyFloorDiv (pyMod seconds 3600) 60
      let secs := pyMod seconds 60
      toString hours ++ "时" ++ toString minutes ++ "分" ++ toString secs ++ "秒"

/-! ## `_format_timestamp`

`datetime.fromtimestamp(ms / 1000).strftime("%Y-%m-%d %H:%M:%S")` is
modelled for CPython on a 64-bit Linux, with the process-local timezone
taken as UTC (the rendered wall-clock text is environment dependent; the
exception behaviour below is not):

* `ms / 1000` (true division of Python ints) raises
  `OverflowError("integer division result too large for a float")` when
  the quotient exceeds the IEEE-754 double range, i.e. when
  `|ms|` is at least about `1000 * 2^1024` (the exact cutoff differs by
  at most one rounding ulp, inside a band in which CPython raises
  `OverflowError` either here or at the next step, so the raised
  exception class is exact everywhere);
* `datetime.fromtimestamp` raises `OverflowError("timestamp out of range
  for platform time_t")` when the seconds value exceeds a signed 64-bit
  `time_t`;
* it raises `ValueError` when the resulting calendar year falls outside
  1..9999 (and `OSError` on a `localtime` failure, which the model needs
  no separate case for).
-/

/-- Smallest integer magnitude that overflows an IEEE-754 double. -/
def FLOAT_OVERFLOW_BOUND : Int := 2 ^ 1024

/-- Largest signed 64-bit `time_t` value. -/
def TIME_T_MAX : Int := 2 ^ 63 - 1

/-- Smallest signed 64-bit `time_t` value. -/
def TIME_T_MIN : Int := -(2 ^ 63)

/-- Seconds since the epoch of `9999-12-31 23:59:59` UTC. -/
def DATETIME_MAX_SECONDS : Int := 253402300799

/-- Seconds since the epoch of `0001-01-01 00:00:00` UTC. -/
def DATETIME_MIN_SECONDS : Int := -62135596800

/-- Proleptic Gregorian calendar date of a day count relative to
1970-01-01 (standard era-based civil-calendar conversion). -/
def civilFromDays (z0 : Int) : Int × Int × Int :=
  let z := z0 + 719468
  let era := pyFloorDiv z 146097
  let doe := z - era * 146097
  let yoe := pyFloorDiv (doe - pyFloorDiv doe 1460 + pyFloorDiv doe 36524 - pyFloorDiv doe 146096) 365
  let y := yoe + era * 400
  let doy := doe - (365 * yoe + pyFloorDiv yoe 4 - pyFloorDiv yoe 100)
  let mp := pyFloorDiv (5 * doy + 2) 153
  let d := doy - pyFloorDiv (153 * mp + 2) 5 + 1
  let m := mp + (if mp < 10 then 3 else -9)
  (if m ≤ 2 then y + 1 else y, m, d)

/-- Render epoch seconds as `YYYY-MM-DD HH:MM:SS` (UTC). -/
def renderCivil (t : Int) : String :=
  let days := pyFloorDiv t 86400
  let sod := pyMod t 86400
  let ymd := civilFromDays days
  let y := ymd.1
  let m := ymd.2.1
  let d := ymd.2.2
  let pad4 := fun (n : Int) =>
    if n < 10 then "000" ++ toString n
    else if n < 100 then "00" ++ toString n
    else if n < 1000 then "0" ++ toString n
    else toString n
  pad4 y ++ "-" ++ pad2 m ++ "-" ++ pad2 d ++ " " ++
    pad2 (pyFloorDiv sod 3600) ++ ":" ++ pad2 (pyMod (pyFloorDiv sod 60) 60) ++
    ":" ++ pad2 (pyMod sod 60)

/-- Model of `datetime.fromtimestamp(ms / 1000).strftime(...)` applied to
an integer millisecond count, per the CPython behaviour described above. -/
def pyFromtimestampMs (ms : Int) : Except PyExc String :=
  if 1000 * FLOAT_OVERFLOW_BOUND ≤ ms ∨ ms ≤ -(1000 * FLOAT_OVERFLOW_BOUND) then
    .error (.overflowError "integer division result too large for a float")
  else
    let t := pyFloorDiv ms 1000
    if TIME_T_MAX < t ∨ t < TIME_T_MIN then
      .error (.overflowError "timestamp out of range for platform time_t")
    else if DATETIME_MAX_SECONDS < t ∨ t < DATETIME_MIN_SECONDS then
      .error (.valueError "year is out of range")
    else
      .ok (renderCivil t)

/-- `_format_timestamp`: `"N/A"` for `ms <= 0`, else the rendered local
time; the `try` block catches only `ValueError` and `OSError`, so any
other exception from the conversion propagates out of the function. -/
def _format_timestamp (ms : Int) : Except PyExc String :=
  if ms ≤ 0 then .ok "N/A"
  else
    match pyFromtimestampMs ms with
    | .ok s => .ok s
    | .error (.valueError _) => .ok "N/A"
    | .error (.osError _) => .ok "N/A"
    | .error e => .error e

/-! ## `_extract_pre_content`

The source matches the first occurrence of the regex
`<pre[^>]*>(.*?)</pre>` with `re.DOTALL | re.IGNORECASE`.  At a given
start position the match is deterministic: the literal `<pre`
(case-insensitive), then `[^>]*>` necessarily runs to the first `>`,
then the lazy group captures up to the first subsequent `</pre>`
(case-insensitive, newlines included).  `re.search` takes the leftmost
start position at which this succeeds. -/

/-- Case-insensitive literal-prefix test; the pattern is given in
lowercase. -/
def ciStartsWith : List Char → List Char → Bool
  | [], _ => true
  | _ :: _, [] => false
  | p :: ps, c :: cs => p == c.toLower && ciStartsWith ps cs

/-- Exact literal-prefix test. -/
def litStartsWith : List Char → List Char → Bool
  | [], _ => true
  | _ :: _, [] => false
  | p :: ps, c :: cs => p == c && litStartsWith ps cs

/-- Lazy capture of `(.*?)` up to the first case-insensitive `</pre>`;
`none` when the input has no closing tag. -/
def captureBody : List Char → Option (List Char)
  | [] => none
  | c :: cs =>
      if ciStartsWith "</pre>".data (c :: cs) then some []
      else (captureBody cs).map (fun body => c :: body)

/-- Attempt of the whole regex anchored at the current position. -/
def matchPreAt (s : List Char) : Option (List Char) :=
  if ciStartsWith "<pre".data s then
    match (s.drop 4).dropWhile (fun c => c ≠ '>') with
    | [] => none
    | _ :: afterGt => captureBody afterGt
  else none

/-- Leftmost-match search of the regex over the document. -/
def searchPre : List Char → Option (List Char)
  | [] => none
  | c :: cs =>
      match matchPreAt (c :: cs) with
      | some cap => some cap
      | none => searchPre cs

/-- The apostrophe character (written by code point to keep the source
free of quote-literal noise). -/
def sq : Char := Char.ofNat 39

/-- Strip an exact literal from the front of the input, returning the
remainder on success. -/
def stripLit : List Char → List Char → Option (List Char)
  | [], s => some s
  | _ :: _, [] => none
  | p :: ps, c :: cs => if p = c then stripLit ps cs else none

/-- Fuel-indexed body of `pyReplace`; the fuel is structural and an
input-length budget always suffices because the pattern is nonempty. -/
def pyReplaceGo (p0 : Char) (ps repl : List Char) : Nat → List Char → List Char
  | 0, s => s
  | _ + 1, [] => []
  | fuel + 1, c :: cs =>
      match stripLit (p0 :: ps) (c :: cs) with
      | some rest => repl ++ pyReplaceGo p0 ps repl fuel rest
      | none => c :: pyReplaceGo p0 ps repl fuel cs

/-- Python `str.replace`: non-overlapping left-to-right replacement of a
nonempty pattern `p0 :: ps` by `repl`. -/
def pyReplace (p0 : Char) (ps repl s : List Char) : List Char :=
  pyReplaceGo p0 ps repl s.length s

/-- The six entity substitutions of `_extract_pre_content`, applied in
source order. -/
def decodeEntities (s : List Char) : List Char :=
  let s1 := pyReplace '&' "lt;".data "<".data s
  let s2 := pyReplace '&' "gt;".data ">".data s1
  let s3 := pyReplace '&' "amp;".data "&".data s2
  let s4 := pyReplace '&' "quot;".data "\"".data s3
  let s5 := pyReplace '&' "#39;".data [sq] s4
  pyReplace '&' "nbsp;".data " ".data s5

/-- Python `str.isspace` characters (the whitespace removed by
`str.strip`). -/
def pyIsSpace (c : Char) : Bool :=
  c == ' ' || c == '\t' || c == '\n' || c == '\r' ||
  c == Char.ofNat 11 || c == Char.ofNat 12 ||
  c == Char.ofNat 28 || c == Char.ofNat 29 || c == Char.ofNat 30 ||
  c == Char.ofNat 31 || c == Char.ofNat 133 || c == Char.ofNat 160 ||
  c == Char.ofNat 0x1680 || (0x2000 ≤ c.toNat && c.toNat ≤ 0x200a) ||
  c == Char.ofNat 0x2028 || c == Char.ofNat 0x2029 ||
  c == Char.ofNat 0x202f || c == Char.ofNat 0x205f || c == Char.ofNat 0x3000

/-- Python `str.strip()`. -/
def pyStrip (s : List Char) : List Char :=
  ((s.dropWhile pyIsSpace).reverse.dropWhile pyIsSpace).reverse

/-- `_extract_pre_content`: first `<pre>` body, entity-decoded and
stripped; empty string when the document has no such element. -/
def _extract_pre_content (html : String) : String :=
  match searchPre html.data with
  | some body => String.mk (pyStrip (decodeEntities body))
  | none => ""

/-! ## `_format_counters_markdown` -/

/-- Python iteration (`for x in v`): lists yield their elements, strings
their characters, dicts their keys; other values raise `TypeError`. -/
def Json.pyIter : Json → Except PyExc (List Json)
  | .arr l => .ok l
  | .str s => .ok (s.data.map (fun c => Json.str (String.mk [c])))
  | .obj kvs => .ok (kvs.map (fun kv => Json.str kv.1))
  | j => .error (.typeError ("object is not iterable: " ++ j.pyStrOf))

/-- Test for the JSON `null` (Python `None`). -/
def isNullJ : Json → Bool
  | .null => true
  | _ => false

/-- Thousands grouping of a reversed digit list (a comma after every
three characters), fuel-indexed for structural recursion. -/
def commaGroupRev : Nat → List Char → List Char
  | 0, s => s
  | fuel + 1, s =>
      if s.length ≤ 3 then s
      else s.take 3 ++ ',' :: commaGroupRev fuel (s.drop 3)

/-- Python format `f"\x7bn:,\x7d"` on an int: decimal digits with a comma
every three digits from the right. -/
def pyCommaFmt (n : Int) : String :=
  let ds := (toString n.natAbs).data
  let grouped := (commaGroupRev ds.length ds.reverse).reverse
  (if n < 0 then "-" else "") ++ String.mk grouped

/-- Python format `f"\x7bv:,\x7d"` applied to a parsed JSON value: ints
format with grouping, bools as their int value, and the remaining types
raise (`ValueError` for str, `TypeError` otherwise), as CPython does. -/
def pyFormatCommaJ : Json → Except PyExc String
  | .num n => .ok (pyCommaFmt n)
  | .bool b => .ok (if b then "1" else "0")
  | .str _ => .error (.valueError "Cannot specify comma with str")
  | .null => .error (.typeError "unsupported format string passed to NoneType.__format__")
  | .arr _ => .error (.typeError "unsupported format string passed to list.__format__")
  | .obj _ => .error (.typeError "unsupported format string passed to dict.__format__")

/-- Python `s.split(".")` on a character list. -/
def splitOnDot : List Char → List (List Char)
  | [] => [[]]
  | c :: cs =>
      if c = '.' then [] :: splitOnDot cs
      else
        match splitOnDot cs with
        | [] => [[c]]
        | g :: gs => (c :: g) :: gs

/-- The source's group display name:
`group_name.split(".")[-1] if "." in group_name else group_name`. -/
def codeShortName (s : String) : String :=
  if s.data.contains '.' then String.mk ((splitOnDot s.data).getLastD []) else s

/-- Specification-side display name: the substring after the last dot,
read off from the reversed character list. -/
def specAfterLastDot (s : String) : String :=
  String.mk ((s.data.reverse.takeWhile (fun c => c != '.')).reverse)

/-- Display-name computation lifted to the JSON group-name value; the
source applies `in` and `.split` to it, which only succeed on a str. -/
def codeShortNameJ : Json → Except PyExc String
  | .str s => .ok (codeShortName s)
  | .arr _ => .error (.attributeError "no attribute split")
  | .obj _ => .error (.attributeError "no attribute split")
  | j => .error (.typeError ("argument is not iterable: " ++ j.pyStrOf))

/-- Specification-side twin of `codeShortNameJ`, using the
reversed-`takeWhile` characterisation of "substring after the last dot". -/
def specShortNameJ : Json → Except PyExc String
  | .str s => .ok (if s.data.contains '.' then specAfterLastDot s else s)
  | .arr _ => .error (.attributeError "no attribute split")
  | .obj _ => .error (.attributeError "no attribute split")
  | j => .error (.typeError ("argument is not iterable: " ++ j.pyStrOf))

/-- One counter bullet line of `_format_counters_markdown`: value
preference `totalCounterValue`, then `value`, then `0`; the map/reduce
pair is appended exactly when both are non-`None`. -/
def formatCounterLine (counter : Json) : Except PyExc String := do
  let name ← counter.pyGetD "name" (.str "Unknown")
  let inner ← counter.pyGetD "value" (.num 0)
  let total_value ← counter.pyGetD "totalCounterValue" inner
  let map_value ← counter.pyGet1 "mapCounterValue"
  let reduce_value ← counter.pyGet1 "reduceCounterValue"
  if !isNullJ map_value && !isNullJ reduce_value then do
    let tvs ← pyFormatCommaJ total_value
    let mvs ← pyFormatCommaJ map_value
    let rvs ← pyFormatCommaJ reduce_value
    pure ("- **" ++ name.pyStrOf ++ "**: " ++ tvs ++ " (Map: " ++ mvs ++
      ", Reduce: " ++ rvs ++ ")")
  else do
    let tvs ← pyFormatCommaJ total_value
    pure ("- **" ++ name.pyStrOf ++ "**: " ++ tvs)

/-- Specification-side twin of `formatCounterLine`, phrased by direct
pattern matching on the entry list. -/
def specCounterLine (counter : Json) : Except PyExc String :=
  match counter with
  | .obj entries =>
      let name := (jsonLookup "name" entries).getD (.str "Unknown")
      let total :=
        match jsonLookup "totalCounterValue" entries with
        | some t => t
        | none =>
            match jsonLookup "value" entries with
            | some v => v
            | none => .num 0
      let mv := (jsonLookup "mapCounterValue" entries).getD .null
      let rv := (jsonLookup "reduceCounterValue" entries).getD .null
      if !isNullJ mv && !isNullJ rv then do
        let tvs ← pyFormatCommaJ total
        let mvs ← pyFormatCommaJ mv
        let rvs ← pyFormatCommaJ rv
        pure ("- **" ++ name.pyStrOf ++ "**: " ++ tvs ++ " (Map: " ++ mvs ++
          ", Reduce: " ++ rvs ++ ")")
      else do
        let tvs ← pyFormatCommaJ total
        pure ("- **" ++ name.pyStrOf ++ "**: " ++ tvs)
  | _ => .error (.attributeError "object has no attribute get")

/-- The inner `for counter in counters` loop. -/
def renderCounterLines : List Json → Except PyExc (List String)
  | [] => .ok []
  | c :: rest => do
      let l ← formatCounterLine c
      let ls ← renderCounterLines rest
      pure (l :: ls)

/-- Specification-side twin of `renderCounterLines`. -/
def specRenderCounterLines : List Json → Except PyExc (List String)
  | [] => .ok []
  | c :: rest => do
      let l ← specCounterLine c
      let ls ← specRenderCounterLines rest
      pure (l :: ls)

/-- Lines contributed by one counter group. -/
def renderGroup (group : Json) : Except PyExc (List String) := do
  let gname ← group.pyGetD "counterGroupName" (.str "Unknown Group")
  let short ← codeShortNameJ gname
  let counters ← group.pyGetD "counter" (.arr [])
  let citems ← counters.pyIter
  let clines ← renderCounterLines citems
  pure (("## " ++ short) :: "" :: (clines ++ [""]))

/-- Specification-side twin of `renderGroup`. -/
def specRenderGroup (group : Json) : Except PyExc (List String) := do
  let gname ← group.pyGetD "counterGroupName" (.str "Unknown Group")
  let short ← specShortNameJ gname
  let counters ← group.pyGetD "counter" (.arr [])
  let citems ← counters.pyIter
  let clines ← specRenderCounterLines citems
  pure (("## " ++ short) :: "" :: (clines ++ [""]))

/-- The outer `for group in counter_groups` loop. -/
def renderGroups : List Json → Except PyExc (List (List String))
  | [] => .ok []
  | g :: rest => do
      let ls ← renderGroup g
      let rest2 ← renderGroups rest
      pure (ls :: rest2)

/-- Specification-side twin of `renderGroups`. -/
def specRenderGroups : List Json → Except PyExc (List (List String))
  | [] => .ok []
  | g :: rest => do
      let ls ← specRenderGroup g
      let rest2 ← specRenderGroups rest
      pure (ls :: rest2)

/-- `_format_counters_markdown`: title, then per-group sections; the
group list is taken from `counterGroup`, falling back to
`taskCounterGroup` and then `taskAttemptCounterGroup` whenever the value
held so far is falsy. -/
def _format_counters_markdown (counters_data : Json) (title : String) :
    Except PyExc String := do
  let g1 ← counters_data.pyGetD "counterGroup" (.arr [])
  let g2 ← if g1.pyTruthy then pure g1 else counters_data.pyGetD "taskCounterGroup" (.arr [])
  let counter_groups ←
    if g2.pyTruthy then pure g2
    else counters_data.pyGetD "taskAttemptCounterGroup" (.arr [])
  let gitems ← counter_groups.pyIter
  let glines ← renderGroups gitems
  pure (String.intercalate "\n" (("# " ++ title) :: "" :: glines.flatten))

/-- Group-list choice as the amended claim words it: the first of the
three keys whose value is present and truthy; when none is truthy the
last fallback value is used unchanged. -/
def specChooseGroups (d : Json) : Except PyExc Json :=
  match d with
  | .obj entries =>
      let vals := ["counterGroup", "taskCounterGroup", "taskAttemptCounterGroup"].map
        (fun k => (jsonLookup k entries).getD (.arr []))
      .ok ((vals.find? Json.pyTruthy).getD (vals.getLastD (.arr [])))
  | _ => .error (.attributeError "object has no attribute get")

/-- Group-list choice as the original claim words it: whichever of the
three keys is present, preferring the first found, defaulting to an
empty list. -/
def claimChooseGroups (d : Json) : Except PyExc Json :=
  match d with
  | .obj entries =>
      .ok ((jsonLookup "counterGroup" entries <|>
            jsonLookup "taskCounterGroup" entries <|>
            jsonLookup "taskAttemptCounterGroup" entries).getD (.arr []))
  | _ => .error (.attributeError "object has no attribute get")

/-- The counters formatter as described by the amended claim. -/
def formatCountersSpec (d : Json) (title : String) : Except PyExc String := do
  let groups ← specChooseGroups d
  let gitems ← groups.pyIter
  let glines ← specRenderGroups gitems
  pure (String.intercalate "\n" (("# " ++ title) :: "" :: glines.flatten))

/-- The counters formatter as described by the original (unamended)
claim: identical except that the group list comes from the first present
key. -/
def formatCountersClaim (d : Json) (title : String) : Except PyExc String := do
  let groups ← claimChooseGroups d
  let gitems ← groups.pyIter
  let glines ← specRenderGroups gitems
  pure (String.intercalate "\n" (("# " ++ title) :: "" :: glines.flatten))

/-- Decidable equality of handler results, used to evaluate concrete
counterexamples. -/
instance exceptDecEq {α β : Type} [DecidableEq α] [DecidableEq β] :
    DecidableEq (Except α β) := fun a b =>
  match a, b with
  | .ok x, .ok y =>
      if h : x = y then .isTrue (by rw [h])
      else .isFalse (fun hh => h (Except.ok.inj hh))
  | .error x, .error y =>
      if h : x = y then .isTrue (by rw [h])
      else .isFalse (fun hh => h (Except.error.inj hh))
  | .ok _, .error _ => .isFalse (fun hh => Except.noConfusion hh)
  | .error _, .ok _ => .isFalse (fun hh => Except.noConfusion hh)

/-- Entry list of a counters payload whose `counterGroup` key is present
but holds an empty list while `taskCounterGroup` holds a real group. -/
def cexCountersEntries : List (String × Json) :=
  [("counterGroup", .arr []),
   ("taskCounterGroup", .arr [Json.obj
     [("counterGroupName", .str "org.apache.hadoop.mapreduce.FileSystemCounter"),
      ("counter", .arr [Json.obj
        [("name", .str "FILE_BYTES_READ"), ("totalCounterValue", .num 12345)]])]])]

/-- The counters payload built from `cexCountersEntries`. -/
def cexCountersData : Json := .obj cexCountersEntries

/-! ## Input models (Pydantic classes) -/

/-- The `ResponseFormat` enum. -/
inductive ResponseFormat where
  | markdown
  | json
  deriving DecidableEq, Repr

/-- The `JobState` enum. -/
inductive JobState where
  | NEW | INITED | RUNNING | SUCCEEDED | FAILED | KILL_WAIT | KILLED | ERROR
  deriving DecidableEq, Repr

/-- The REST value of a `JobState` member (its `.value`). -/
def JobState.value : JobState → String
  | .NEW => "NEW"
  | .INITED => "INITED"
  | .RUNNING => "RUNNING"
  | .SUCCEEDED => "SUCCEEDED"
  | .FAILED => "FAILED"
  | .KILL_WAIT => "KILL_WAIT"
  | .KILLED => "KILLED"
  | .ERROR => "ERROR"

/-- The `LogType` enum. -/
inductive LogType where
  | stdout | stderr | syslog | syslogShuffle | prelaunchOut | prelaunchErr
  | containerLocalizerSyslog
  deriving DecidableEq, Repr

/-- The URL segment of a `LogType` member (its `.value`). -/
def LogType.value : LogType → String
  | .stdout => "stdout"
  | .stderr => "stderr"
  | .syslog => "syslog"
  | .syslogShuffle => "syslog.shuffle"
  | .prelaunchOut => "prelaunch.out"
  | .prelaunchErr => "prelaunch.err"
  | .containerLocalizerSyslog => "container-localizer-syslog"

/-- Validated `ListJobsInput`.  Optional fields are `none` when the
caller passed null / omitted them (`limit` defaults to 20 at
validation, but may be explicitly null); Pydantic guarantees
`1 ≤ limit ≤ 100` and nonnegative time bounds for present values. -/
structure ListJobsInput where
  user : Option String
  state : Option JobState
  queue : Option String
  limit : Option Int
  started_time_begin : Option Int
  started_time_end : Option Int
  finished_time_begin : Option Int
  finished_time_end : Option Int
  response_format : ResponseFormat

/-- The upstream query assembled by `jobhistory_list_jobs`: one
`if params.field:` (Python truthiness) guard per optional field, in
source order. -/
def buildListJobsQuery (p : ListJobsInput) : List (String × Json) :=
  (match p.user with
   | some u => if !u.isEmpty then [("user", Json.str u)] else []
   | none => []) ++
  (match p.state with
   | some st => [("state", Json.str st.value)]
   | none => []) ++
  (match p.queue with
   | some q => if !q.isEmpty then [("queue", Json.str q)] else []
   | none => []) ++
  (match p.limit with
   | some l => if l != 0 then [("limit", Json.num l)] else []
   | none => []) ++
  (match p.started_time_begin with
   | some t => if t != 0 then [("startedTimeBegin", Json.num t)] else []
   | none => []) ++
  (match p.started_time_end with
   | some t => if t != 0 then [("startedTimeEnd", Json.num t)] else []
   | none => []) ++
  (match p.finished_time_begin with
   | some t => if t != 0 then [("finishedTimeBegin", Json.num t)] else []
   | none => []) ++
  (match p.finished_time_end with
   | some t => if t != 0 then [("finishedTimeEnd", Json.num t)] else []
   | none => [])

/-- Truthy projection of an optional string field. -/
def truthyStr : Option String → Option Json
  | some u => if !u.isEmpty then some (.str u) else none
  | none => none

/-- Truthy projection of an optional int field. -/
def truthyInt : Option Int → Option Json
  | some t => if t != 0 then some (.num t) else none
  | none => none

/-- The eight optional filter fields of the jobs listing, as
(upstream parameter name, truthy value) pairs in source order. -/
def listJobsQueryTable (p : ListJobsInput) : List (String × Option Json) :=
  [("user", truthyStr p.user),
   ("state", p.state.map (fun st => Json.str st.value)),
   ("queue", truthyStr p.queue),
   ("limit", truthyInt p.limit),
   ("startedTimeBegin", truthyInt p.started_time_begin),
   ("startedTimeEnd", truthyInt p.started_time_end),
   ("finishedTimeBegin", truthyInt p.finished_time_begin),
   ("finishedTimeEnd", truthyInt p.finished_time_end)]

/-- Specification-side query: exactly the fields of the table whose
truthy value is present, each under its upstream name. -/
def specListJobsQuery (p : ListJobsInput) : List (String × Json) :=
  (listJobsQueryTable p).flatMap
    (fun kv => match kv.2 with
      | some v => [(kv.1, v)]
      | none => [])

/-- A validated listing input with `started_time_begin = 0` (the field
constraint is `ge=0`, so 0 is a legal present value) and the default
`limit` of 20. -/
def cexListJobsInput : ListJobsInput :=
  { user := none, state := none, queue := none, limit := some 20,
    started_time_begin := some 0, started_time_end := none,
    finished_time_begin := none, finished_time_end := none,
    response_format := .markdown }

/-! ## JSON text: canonical serialisation and `json.loads`

`BaseInput.parse_json_string` feeds a string input through `json.loads`.
To state that a parameter set serialised as one JSON string is accepted
identically to the structured object, a canonical client-side
serialisation `pyJsonDumps` is defined (minimal JSON: no added
whitespace, strings escaped only where JSON requires it) together with a
model `loads` of `json.loads`.  The parser also accepts the escapes and
whitespace `json.loads` accepts; two deliberate model limits, neither
reachable from serialiser output: JSON floats are rejected rather than
parsed (the tool parameters are strings and integers), and lone
surrogate `\u` escapes are rejected (Lean characters are Unicode scalar
values). -/

/-- Digit character of a value below ten. -/
def digitCh : Nat → Char
  | 0 => '0' | 1 => '1' | 2 => '2' | 3 => '3' | 4 => '4'
  | 5 => '5' | 6 => '6' | 7 => '7' | 8 => '8' | _ => '9'

/-- Lowercase hex digit character of a value below sixteen. -/
def hexCh : Nat → Char
  | 0 => '0' | 1 => '1' | 2 => '2' | 3 => '3' | 4 => '4'
  | 5 => '5' | 6 => '6' | 7 => '7' | 8 => '8' | 9 => '9'
  | 10 => 'a' | 11 => 'b' | 12 => 'c' | 13 => 'd' | 14 => 'e' | _ => 'f'

/-- Decimal digit emission, most significant first; the fuel is a
structural budget and any value above the input suffices. -/
def natDigitsGo : Nat → Nat → List Char → List Char
  | 0, _, acc => acc
  | fuel + 1, n, acc =>
      if n < 10 then digitCh n :: acc
      else natDigitsGo fuel (n / 10) (digitCh (n % 10) :: acc)

/-- Decimal digits of a natural number. -/
def natDigits (n : Nat) : List Char := natDigitsGo (n + 1) n []

/-- Decimal text of an integer. -/
def intDump (n : Int) : List Char :=
  if n < 0 then '-' :: natDigits n.natAbs else natDigits n.natAbs

/-- JSON escape of one character: quote and backslash get a backslash
escape, control characters a `\u00XX` escape, everything else stands
for itself. -/
def escChar (c : Char) : List Char :=
  if c = '"' then ['\\', '"']
  else if c = '\\' then ['\\', '\\']
  else if c.toNat < 32 then
    ['\\', 'u', '0', '0', hexCh (c.toNat / 16), hexCh (c.toNat % 16)]
  else [c]

/-- JSON escape of a character list. -/
def dumpStrChars : List Char → List Char
  | [] => []
  | c :: cs => escChar c ++ dumpStrChars cs

mutual

/-- Canonical JSON text of a value (character list). -/
def dumpsJ : Json → List Char
  | .null => "null".data
  | .bool b => if b then "true".data else "false".data
  | .num n => intDump n
  | .str s => '"' :: dumpStrChars s.data ++ ['"']
  | .arr l => '[' :: dumpsElems l ++ [']']
  | .obj l => '\x7b' :: dumpsMembers l ++ ['\x7d']

/-- Comma-separated element texts of an array. -/
def dumpsElems : List Json → List Char
  | [] => []
  | v :: vs => dumpsJ v ++ dumpsElemsSep vs

/-- Elements after the first, each preceded by a comma. -/
def dumpsElemsSep : List Json → List Char
  | [] => []
  | v :: vs => ',' :: dumpsJ v ++ dumpsElemsSep vs

/-- Comma-separated member texts of an object. -/
def dumpsMembers : List (String × Json) → List Char
  | [] => []
  | (k, v) :: ms =>
      '"' :: dumpStrChars k.data ++ '"' :: ':' :: dumpsJ v ++ dumpsMembersSep ms

/-- Members after the first, each preceded by a comma. -/
def dumpsMembersSep : List (String × Json) → List Char
  | [] => []
  | (k, v) :: ms =>
      ',' :: '"' :: dumpStrChars k.data ++ '"' :: ':' :: dumpsJ v ++ dumpsMembersSep ms

end

/-- Canonical JSON serialisation of a value. -/
def pyJsonDumps (v : Json) : String := String.mk (dumpsJ v)

/-- JSON whitespace. -/
def wsChar (c : Char) : Bool :=
  c = ' ' || c = '\t' || c = '\n' || c = '\r'

/-- Skip JSON whitespace. -/
def skipWs (cs : List Char) : List Char := cs.dropWhile wsChar

/-- Decimal digit test on the character code. -/
def isDigitCh (c : Char) : Bool := 48 ≤ c.toNat && c.toNat ≤ 57

/-- Numeric value of a hex digit character. -/
def hexVal (c : Char) : Option Nat :=
  if 48 ≤ c.toNat && c.toNat ≤ 57 then some (c.toNat - 48)
  else if 97 ≤ c.toNat && c.toNat ≤ 102 then some (c.toNat - 87)
  else if 65 ≤ c.toNat && c.toNat ≤ 70 then some (c.toNat - 55)
  else none

/-- Four hex digits. -/
def parseHex4 : List Char → Option (Nat × List Char)
  | a :: b :: c :: d :: rest =>
      match hexVal a, hexVal b, hexVal c, hexVal d with
      | some x, some y, some z, some w => some (((x * 16 + y) * 16 + z) * 16 + w, rest)
      | _, _, _, _ => none
  | _ => none

/-- Digit accumulation: consume a maximal digit prefix. -/
def parseDigitsGo : List Char → Nat → Nat × List Char
  | [], acc => (acc, [])
  | c :: cs, acc =>
      if isDigitCh c then parseDigitsGo cs (acc * 10 + (c.toNat - 48))
      else (acc, c :: cs)

/-- Head test. -/
def headIs (cs : List Char) (d : Char) : Bool :=
  match cs with
  | c :: _ => c = d
  | [] => false

/-- A natural number literal (at least one digit; strict JSON's
leading-zero rejection is not modelled — canonical output never carries
leading zeros). -/
def parseNumNat (cs : List Char) : Option (Nat × List Char) :=
  match cs with
  | c :: _ => if isDigitCh c then some (parseDigitsGo cs 0) else none
  | [] => none

/-- Continuation characters that would make the literal a float. -/
def isFloatStart : List Char → Bool
  | c :: _ => c = '.' || c = 'e' || c = 'E'
  | [] => false

/-- Head-is-a-digit test. -/
def headDigit : List Char → Bool
  | c :: _ => isDigitCh c
  | [] => false

/-- The characters that may legally follow a serialised value inside a
canonical document: a separator, a closing delimiter, or the end. -/
def tokenBoundary : List Char → Bool
  | [] => true
  | c :: _ => c = ',' || c = ']' || c = '\x7d'

/-- An integer literal (floats are outside the model and rejected). -/
def parseIntTok (cs : List Char) : Option (Int × List Char) :=
  if headIs cs '-' then
    match parseNumNat cs.tail with
    | some (n, r) => if isFloatStart r then none else some (-(n : Int), r)
    | none => none
  else
    match parseNumNat cs with
    | some (n, r) => if isFloatStart r then none else some ((n : Int), r)
    | none => none

/-- Prepend a decoded character to a string-parse result. -/
def consMap (c : Char) (o : Option (List Char × List Char)) :
    Option (List Char × List Char) :=
  o.map (fun p => (c :: p.1, p.2))

/-- JSON string body after the opening quote: literal characters,
backslash escapes, `\uXXXX` (with surrogate-pair combination), closed
by an unescaped quote; raw control characters are rejected as in strict
`json.loads`. -/
def parseStrGo : Nat → List Char → Option (List Char × List Char)
  | 0, _ => none
  | fuel + 1, cs =>
      match cs with
      | [] => none
      | c :: rest =>
          if c = '"' then some ([], rest)
          else if c = '\\' then
            match rest with
            | [] => none
            | e :: r =>
                if e = '"' then consMap '"' (parseStrGo fuel r)
                else if e = '\\' then consMap '\\' (parseStrGo fuel r)
                else if e = '/' then consMap '/' (parseStrGo fuel r)
                else if e = 'b' then consMap (Char.ofNat 8) (parseStrGo fuel r)
                else if e = 'f' then consMap (Char.ofNat 12) (parseStrGo fuel r)
                else if e = 'n' then consMap '\n' (parseStrGo fuel r)
                else if e = 'r' then consMap '\r' (parseStrGo fuel r)
                else if e = 't' then consMap '\t' (parseStrGo fuel r)
                else if e = 'u' then
                  match parseHex4 r with
                  | some (h, r2) =>
                      if 0xD800 ≤ h ∧ h ≤ 0xDBFF then
                        match r2 with
                        | '\\' :: 'u' :: r3 =>
                            match parseHex4 r3 with
                            | some (l, r4) =>
                                if 0xDC00 ≤ l ∧ l ≤ 0xDFFF then
                                  consMap
                                    (Char.ofNat (0x10000 + (h - 0xD800) * 0x400 + (l - 0xDC00)))
                                    (parseStrGo fuel r4)
                                else none
                            | none => none
                        | _ => none
                      else if 0xDC00 ≤ h ∧ h ≤ 0xDFFF then none
                      else consMap (Char.ofNat h) (parseStrGo fuel r2)
                  | none => none
                else none
          else if c.toNat < 32 then none
          else consMap c (parseStrGo fuel rest)

mutual

/-- A JSON value (leading whitespace allowed), fuel-indexed. -/
def parseJ : Nat → List Char → Option (Json × List Char)
  | 0, _ => none
  | fuel + 1, cs0 =>
      match skipWs cs0 with
      | [] => none
      | c :: rest =>
          if c = '\x7b' then parseObjBody fuel rest
          else if c = '[' then parseArrBody fuel rest
          else if c = '"' then
            (parseStrGo (rest.length + 1) rest).map
              (fun p => (Json.str (String.mk p.1), p.2))
          else if c = 't' then
            match stripLit "rue".data rest with
            | some r => some (.bool true, r)
            | none => none
          else if c = 'f' then
            match stripLit "alse".data rest with
            | some r => some (.bool false, r)
            | none => none
          else if c = 'n' then
            match stripLit "ull".data rest with
            | some r => some (.null, r)
            | none => none
          else
            (parseIntTok (c :: rest)).map (fun p => (Json.num p.1, p.2))

/-- Array body after the opening bracket. -/
def parseArrBody : Nat → List Char → Option (Json × List Char)
  | 0, _ => none
  | fuel + 1, cs =>
      let cs2 := skipWs cs
      if headIs cs2 ']' then some (.arr [], cs2.tail)
      else
        match parseJ fuel cs2 with
        | some (v, r) => parseArrRest fuel r [v]
        | none => none

/-- Array continuation: either a comma and a further element, or the
closing bracket. -/
def parseArrRest : Nat → List Char → List Json → Option (Json × List Char)
  | 0, _, _ => none
  | fuel + 1, cs, acc =>
      let cs2 := skipWs cs
      if headIs cs2 ',' then
        match parseJ fuel cs2.tail with
        | some (v, r) => parseArrRest fuel r (v :: acc)
        | none => none
      else if headIs cs2 ']' then some (.arr acc.reverse, cs2.tail)
      else none

/-- Object body after the opening brace. -/
def parseObjBody : Nat → List Char → Option (Json × List Char)
  | 0, _ => none
  | fuel + 1, cs =>
      let cs2 := skipWs cs
      if headIs cs2 '\x7d' then some (.obj [], cs2.tail)
      else if headIs cs2 '"' then
        match parseStrGo (cs2.tail.length + 1) cs2.tail with
        | some (k, r) =>
            let r2 := skipWs r
            if headIs r2 ':' then
              match parseJ fuel r2.tail with
              | some (v, r3) => parseObjRest fuel r3 [(String.mk k, v)]
              | none => none
            else none
        | none => none
      else none

/-- Object continuation: either a comma and a further member, or the
closing brace. -/
def parseObjRest : Nat → List Char → List (String × Json) →
    Option (Json × List Char)
  | 0, _, _ => none
  | fuel + 1, cs, acc =>
      let cs2 := skipWs cs
      if headIs cs2 ',' then
        let cs3 := skipWs cs2.tail
        if headIs cs3 '"' then
          match parseStrGo (cs3.tail.length + 1) cs3.tail with
          | some (k, r) =>
              let r2 := skipWs r
              if headIs r2 ':' then
                match parseJ fuel r2.tail with
                | some (v, r3) => parseObjRest fuel r3 ((String.mk k, v) :: acc)
                | none => none
              else none
          | none => none
        else none
      else if headIs cs2 '\x7d' then some (.obj acc.reverse, cs2.tail)
      else none

end

/-- Model of `json.loads`: parse one value and require only whitespace
after it. -/
def loads (s : String) : Option Json :=
  match parseJ (s.data.length + 1) s.data with
  | some (v, rest) => if (skipWs rest).isEmpty then some v else none
  | none => none

/-- `BaseInput.parse_json_string`: a string input is parsed as JSON and
replaced by the parse result; on a parse failure (or a non-string
input) the data is returned unchanged. -/
def parse_json_string (data : Json) : Json :=
  match data with
  | .str s => (loads s).getD data
  | d => d

mutual

/-- Fuel needed by `parseJ` on the canonical text of a value. -/
def jfuel : Json → Nat
  | .null => 1
  | .bool _ => 1
  | .num _ => 1
  | .str _ => 1
  | .arr l => 1 + faB l
  | .obj l => 1 + foB l

/-- Fuel needed by `parseArrBody` on the canonical element texts. -/
def faB : List Json → Nat
  | [] => 1
  | v :: vs => 1 + max (jfuel v) (faR vs)

/-- Fuel needed by `parseArrRest` on the canonical continuation texts. -/
def faR : List Json → Nat
  | [] => 1
  | v :: vs => 1 + max (jfuel v) (faR vs)

/-- Fuel needed by `parseObjBody` on the canonical member texts. -/
def foB : List (String × Json) → Nat
  | [] => 1
  | (_, v) :: ms => 1 + max (jfuel v) (foR ms)

/-- Fuel needed by `parseObjRest` on the canonical continuation texts. -/
def foR : List (String × Json) → Nat
  | [] => 1
  | (_, v) :: ms => 1 + max (jfuel v) (foR ms)

end


/-! ## Log URL construction and the tool handlers

Each handler is embedded as a function of its validated input together
with the outcomes of its upstream requests, passed in request order as
`Except PyExc` values (a `.error` argument models the corresponding
`await` raising).  The handler body runs inside `runHandler`, the
`try/except` frame of the source. -/

/-- The URL path of the log page as the specification words it:
`{logs_base}/{node_manager}/{container_id}/{attempt_id}/{user}/{log_type}/`. -/
def specLogPath (logsBase nodeManager containerId attemptId user logType : String) :
    String :=
  logsBase ++ "/" ++ nodeManager ++ "/" ++ containerId ++ "/" ++ attemptId ++
    "/" ++ user ++ "/" ++ logType ++ "/"

/-- The full-mode log URL built by `jobhistory_get_task_attempt_logs`. -/
def logUrlFull (logsBase nodeManager containerId attemptId user logType : String) :
    String :=
  logsBase ++ "/" ++ nodeManager ++ "/" ++ containerId ++ "/" ++
    attemptId ++ "/" ++ user ++ "/" ++ logType ++ "/" ++
    "?start=0&start.time=0&end.time=9223372036854775807"

/-- The byte-range log URL built by
` jobhistory_get_task_attempt_logs_partial`; `start` and `end` are the
f-string renderings of the input integers, with no clamping. -/
def logUrlRange (logsBase nodeManager containerId attemptId user logType : String)
    (start end_pos : Int) : String :=
  logsBase ++ "/" ++ nodeManager ++ "/" ++ containerId ++ "/" ++
    attemptId ++ "/" ++ user ++ "/" ++ logType ++ "/" ++
    "?start=" ++ toString start ++ "&end=" ++ toString end_pos

/-- `_extract_hostname`: text before the last colon
(`rsplit(':', 1)[0]`), or the whole string when it has no colon. -/
def _extract_hostname (s : String) : String :=
  if s.data.contains ':' then
    String.mk ((s.data.reverse.dropWhile (fun c => c ≠ ':')).tail.reverse)
  else s

/-- The container-id error message of the log handlers. -/
def containerErrMsg : String := "错误：无法获取容器 ID 信息。请检查 attempt_id 是否正确。"

/-- The node-address error message of the log handlers. -/
def nodeErrMsg : String := "错误：无法获取节点地址信息。请检查 attempt_id 是否正确。"

/-- The user-info error message of the log handlers. -/
def userErrMsg : String := "错误：无法获取作业用户信息。请检查 job_id 是否正确。"

/-- Python `len(x)` on a parsed JSON value (`TypeError` on scalars). -/
def pyLenJ : Json → Except PyExc Nat
  | .arr l => .ok l.length
  | .str s => .ok s.length
  | .obj l => .ok l.length
  | j => .error (.typeError ("object has no len: " ++ j.pyStrOf))

/-- Python-style JSON escape of one character, as `json.dumps` with
`ensure_ascii=False` writes it (short escapes for common controls). -/
def pyEscChar (c : Char) : List Char :=
  if c = '"' then ['\\', '"']
  else if c = '\\' then ['\\', '\\']
  else if c = '\n' then ['\\', 'n']
  else if c = '\t' then ['\\', 't']
  else if c = '\r' then ['\\', 'r']
  else if c.toNat = 8 then ['\\', 'b']
  else if c.toNat = 12 then ['\\', 'f']
  else if c.toNat < 32 then
    ['\\', 'u', '0', '0', hexCh (c.toNat / 16), hexCh (c.toNat % 16)]
  else [c]

/-- Python-style JSON escape of a character list. -/
def pyEscStr : List Char → List Char
  | [] => []
  | c :: cs => pyEscChar c ++ pyEscStr cs

/-- A JSON string literal as `json.dumps` writes it. -/
def pyQuoted (s : String) : String := String.mk ('"' :: pyEscStr s.data ++ ['"'])

/-- Indentation of `n` spaces. -/
def indSpaces (n : Nat) : String := String.mk (List.replicate n ' ')

mutual

/-- Model of `json.dumps(v, indent=2, ensure_ascii=False)` at the given
current indentation. -/
def pyDumpsInd : Nat → Json → String
  | _, .null => "null"
  | _, .bool b => if b then "true" else "false"
  | _, .num n => String.mk (intDump n)
  | _, .str s => pyQuoted s
  | _, .arr [] => "[]"
  | ind, .arr (v :: vs) =>
      "[\n" ++ indSpaces (ind + 2) ++ pyDumpsInd (ind + 2) v ++
        pyDumpsIndArr (ind + 2) vs ++ "\n" ++ indSpaces ind ++ "]"
  | _, .obj [] => "\x7b\x7d"
  | ind, .obj ((k, v) :: ms) =>
      "\x7b\n" ++ indSpaces (ind + 2) ++ pyQuoted k ++ ": " ++
        pyDumpsInd (ind + 2) v ++ pyDumpsIndObj (ind + 2) ms ++ "\n" ++
        indSpaces ind ++ "\x7d"

/-- Continuation elements of an indented array. -/
def pyDumpsIndArr : Nat → List Json → String
  | _, [] => ""
  | ind, v :: vs => ",\n" ++ indSpaces ind ++ pyDumpsInd ind v ++ pyDumpsIndArr ind vs

/-- Continuation members of an indented object. -/
def pyDumpsIndObj : Nat → List (String × Json) → String
  | _, [] => ""
  | ind, (k, v) :: ms =>
      ",\n" ++ indSpaces ind ++ pyQuoted k ++ ": " ++ pyDumpsInd ind v ++
        pyDumpsIndObj ind ms

end

/-- The state-to-icon dict lookup with default used by the job
renderers. -/
def stateIcon : Json → String
  | .str "SUCCEEDED" => "✅"
  | .str "FAILED" => "❌"
  | .str "KILLED" => "⚠️"
  | .str "RUNNING" => "🔄"
  | _ => "❓"

/-- `_format_timestamp` applied to a fetched JSON field value: a falsy
value short-circuits to `"N/A"` through `not ms`; a number goes through
the conversion; a truthy non-number raises `TypeError` at `ms <= 0`. -/
def format_timestampJ (j : Json) : Except PyExc String :=
  if !j.pyTruthy then .ok "N/A"
  else
    match j with
    | .num n => _format_timestamp n
    | .bool _ => _format_timestamp 1
    | j2 => .error (.typeError ("not supported between instances: " ++ j2.pyStrOf))

/-- `_format_duration` applied to a fetched JSON field value, with the
same truthiness short-circuit. -/
def format_durationJ (j : Json) : Except PyExc String :=
  if !j.pyTruthy then .ok "N/A"
  else
    match j with
    | .num n => .ok (_format_duration n)
    | .bool _ => .ok (_format_duration 1)
    | j2 => .error (.typeError ("not supported between instances: " ++ j2.pyStrOf))

/-- Validated `GetJobInput`. -/
structure GetJobInput where
  job_id : String
  response_format : ResponseFormat

/-- Validated `GetTaskAttemptLogsInput`. -/
structure GetTaskAttemptLogsInput where
  job_id : String
  task_id : String
  attempt_id : String
  log_type : LogType
  response_format : ResponseFormat

/-- Validated `GetTaskAttemptLogsPartialInput` (`end_pos` embeds the
Python field `end`, a reserved word in Lean). -/
structure GetTaskAttemptLogsPartialInput where
  job_id : String
  task_id : String
  attempt_id : String
  log_type : LogType
  start : Int
  end_pos : Int
  response_format : ResponseFormat

/-- One job block of the jobs-listing markdown rendering. -/
def listJobsJobLines (job : Json) : Except PyExc (List String) := do
  let job_id ← job.pyGetD "id" (.str "N/A")
  let job_name ← job.pyGetD "name" (.str "N/A")
  let state ← job.pyGetD "state" (.str "N/A")
  let user ← job.pyGetD "user" (.str "N/A")
  let queue ← job.pyGetD "queue" (.str "N/A")
  let sts ← format_timestampJ (← job.pyGetD "startTime" (.num 0))
  let fts ← format_timestampJ (← job.pyGetD "finishTime" (.num 0))
  let mc ← job.pyGetD "mapsCompleted" (.num 0)
  let mt ← job.pyGetD "mapsTotal" (.num 0)
  let rc ← job.pyGetD "reducesCompleted" (.num 0)
  let rt ← job.pyGetD "reducesTotal" (.num 0)
  pure ["## " ++ stateIcon state ++ " " ++ job_name.pyStrOf,
    "**ID**: `" ++ job_id.pyStrOf ++ "`",
    "",
    "| 属性 | 值 |",
    "|------|-----|",
    "| 用户 | " ++ user.pyStrOf ++ " |",
    "| 队列 | " ++ queue.pyStrOf ++ " |",
    "| 状态 | " ++ state.pyStrOf ++ " |",
    "| 开始时间 | " ++ sts ++ " |",
    "| 结束时间 | " ++ fts ++ " |",
    "| Map 进度 | " ++ mc.pyStrOf ++ "/" ++ mt.pyStrOf ++ " |",
    "| Reduce 进度 | " ++ rc.pyStrOf ++ "/" ++ rt.pyStrOf ++ " |",
    ""]

/-- The per-job loop of the jobs-listing markdown rendering. -/
def listJobsAllLines : List Json → Except PyExc (List String)
  | [] => .ok []
  | j :: rest => do
      let ls ← listJobsJobLines j
      let more ← listJobsAllLines rest
      pure (ls ++ more)

/-- Body of `jobhistory_list_jobs` after the query has been issued; the
argument is the outcome of the single upstream request. -/
def listJobsBody (p : ListJobsInput) (fetch : Except PyExc Json) :
    Except PyExc String := do
  let data ← fetch
  let jobsOuter ← data.pyGetD "jobs" (.obj [])
  let jobs ← jobsOuter.pyGetD "job" (.arr [])
  if !jobs.pyTruthy then
    pure "没有找到符合条件的作业。"
  else if p.response_format = ResponseFormat.json then do
    let n ← pyLenJ jobs
    pure (pyDumpsInd 0 (.obj [("total", .num (n : Int)), ("jobs", jobs)]))
  else do
    let n ← pyLenJ jobs
    let items ← jobs.pyIter
    let blocks ← listJobsAllLines items
    pure (String.intercalate "\n"
      (["# MapReduce 作业列表", "共找到 **" ++ toString n ++ "** 个作业", ""] ++ blocks))

/-- `jobhistory_list_jobs`. -/
def jobhistory_list_jobs (p : ListJobsInput) (fetch : Except PyExc Json) : String :=
  runHandler (listJobsBody p fetch)

/-- One ACL row of the job-detail rendering. -/
def aclLine (acl : Json) : Except PyExc String := do
  let n ← acl.pyGetD "name" (.str "N/A")
  let v ← acl.pyGetD "value" (.str "N/A")
  pure ("| " ++ n.pyStrOf ++ " | " ++ v.pyStrOf ++ " |")

/-- The ACL loop of the job-detail rendering. -/
def aclAllLines : List Json → Except PyExc (List String)
  | [] => .ok []
  | a :: rest => do
      let l ← aclLine a
      let more ← aclAllLines rest
      pure (l :: more)

/-- Body of `jobhistory_get_job`; the argument is the outcome of the
job-detail request. -/
def getJobBody (p : GetJobInput) (fetch : Except PyExc Json) :
    Except PyExc String := do
  let data ← fetch
  let job ← data.pyGetD "job" (.obj [])
  if p.response_format = ResponseFormat.json then
    pure (pyDumpsInd 0 job)
  else do
    let state ← job.pyGetD "state" (.str "N/A")
    let name ← job.pyGetD "name" (.str "N/A")
    let jid ← job.pyGetD "id" (.str "N/A")
    let user ← job.pyGetD "user" (.str "N/A")
    let queue ← job.pyGetD "queue" (.str "N/A")
    let uberized ← job.pyGet1 "uberized"
    let subT ← format_timestampJ (← job.pyGetD "submitTime" (.num 0))
    let startT ← format_timestampJ (← job.pyGetD "startTime" (.num 0))
    let finT ← format_timestampJ (← job.pyGetD "finishTime" (.num 0))
    let mc ← job.pyGetD "mapsCompleted" (.num 0)
    let mt ← job.pyGetD "mapsTotal" (.num 0)
    let sma ← job.pyGetD "successfulMapAttempts" (.num 0)
    let fma ← job.pyGetD "failedMapAttempts" (.num 0)
    let kma ← job.pyGetD "killedMapAttempts" (.num 0)
    let rc ← job.pyGetD "reducesCompleted" (.num 0)
    let rt ← job.pyGetD "reducesTotal" (.num 0)
    let sra ← job.pyGetD "successfulReduceAttempts" (.num 0)
    let fra ← job.pyGetD "failedReduceAttempts" (.num 0)
    let kra ← job.pyGetD "killedReduceAttempts" (.num 0)
    let avgMap ← format_durationJ (← job.pyGetD "avgMapTime" (.num 0))
    let avgRed ← format_durationJ (← job.pyGetD "avgReduceTime" (.num 0))
    let avgShu ← format_durationJ (← job.pyGetD "avgShuffleTime" (.num 0))
    let avgMer ← format_durationJ (← job.pyGetD "avgMergeTime" (.num 0))
    let mainLines := [
      "# " ++ stateIcon state ++ " 作业详情: " ++ name.pyStrOf,
      "",
      "## 基本信息",
      "| 属性 | 值 |",
      "|------|-----|",
      "| 作业 ID | `" ++ jid.pyStrOf ++ "` |",
      "| 作业名称 | " ++ name.pyStrOf ++ " |",
      "| 用户 | " ++ user.pyStrOf ++ " |",
      "| 队列 | " ++ queue.pyStrOf ++ " |",
      "| 状态 | " ++ state.pyStrOf ++ " |",
      "| Uber 模式 | " ++ (if uberized.pyTruthy then "是" else "否") ++ " |",
      "",
      "## 时间信息",
      "| 阶段 | 时间 |",
      "|------|-----|",
      "| 提交时间 | " ++ subT ++ " |",
      "| 开始时间 | " ++ startT ++ " |",
      "| 结束时间 | " ++ finT ++ " |",
      "",
      "## 任务统计",
      "| 类型 | 完成/总数 | 成功 | 失败 | 终止 |",
      "|------|----------|------|------|------|",
      "| Map | " ++ mc.pyStrOf ++ "/" ++ mt.pyStrOf ++ " | " ++ sma.pyStrOf ++
        " | " ++ fma.pyStrOf ++ " | " ++ kma.pyStrOf ++ " |",
      "| Reduce | " ++ rc.pyStrOf ++ "/" ++ rt.pyStrOf ++ " | " ++ sra.pyStrOf ++
        " | " ++ fra.pyStrOf ++ " | " ++ kra.pyStrOf ++ " |",
      "",
      "## 性能统计",
      "| 指标 | 耗时 |",
      "|------|------|",
      "| 平均 Map 时间 | " ++ avgMap ++ " |",
      "| 平均 Reduce 时间 | " ++ avgRed ++ " |",
      "| 平均 Shuffle 时间 | " ++ avgShu ++ " |",
      "| 平均 Merge 时间 | " ++ avgMer ++ " |"]
    let diagnostics ← job.pyGet1 "diagnostics"
    let diagLines :=
      if diagnostics.pyTruthy then
        ["", "## 诊断信息", "```", diagnostics.pyStrOf, "```"]
      else []
    let acls ← job.pyGetD "acls" (.arr [])
    let aclLines2 ←
      if acls.pyTruthy then do
        let items ← acls.pyIter
        let rows ← aclAllLines items
        pure (["", "## 访问控制", "| ACL 名称 | 值 |", "|----------|-----|"] ++ rows)
      else pure []
    pure (String.intercalate "\n" (mainLines ++ diagLines ++ aclLines2))

/-- `jobhistory_get_job`. -/
def jobhistory_get_job (p : GetJobInput) (fetch : Except PyExc Json) : String :=
  runHandler (getJobBody p fetch)

/-- Body of `jobhistory_get_task_attempt_logs`; the arguments are the
outcomes of its three upstream requests (attempt detail, job detail,
log page), in request order. -/
def getTaskAttemptLogsBody (p : GetTaskAttemptLogsInput)
    (attemptFetch jobFetch : Except PyExc Json) (htmlFetch : Except PyExc String) :
    Except PyExc String := do
  let attempt_data ← attemptFetch
  let attempt ← attempt_data.pyGetD "taskAttempt" (.obj [])
  let container_id ← attempt.pyGet1 "assignedContainerId"
  let node_http_address ← attempt.pyGet1 "nodeHttpAddress"
  if !container_id.pyTruthy then
    pure containerErrMsg
  else if !node_http_address.pyTruthy then
    pure nodeErrMsg
  else do
    let job_data ← jobFetch
    let job ← job_data.pyGetD "job" (.obj [])
    let user ← job.pyGet1 "user"
    if !user.pyTruthy then
      pure userErrMsg
    else do
      let nodeStr ← node_http_address.asStr
      let node_manager := _extract_hostname nodeStr ++ ":" ++ NODEMANAGER_PORT
      let log_url := logUrlFull LOGS_BASE_URL node_manager container_id.pyStrOf
        p.attempt_id user.pyStrOf p.log_type.value
      let html_content ← htmlFetch
      let log_content := _extract_pre_content html_content
      if log_content.isEmpty then
        pure ("日志为空或无法解析日志内容。\n\n**日志 URL**: " ++ log_url)
      else if p.response_format = ResponseFormat.json then
        pure (pyDumpsInd 0 (.obj [
          ("job_id", .str p.job_id),
          ("task_id", .str p.task_id),
          ("attempt_id", .str p.attempt_id),
          ("container_id", container_id),
          ("node_manager", .str node_manager),
          ("user", user),
          ("log_type", .str p.log_type.value),
          ("log_url", .str log_url),
          ("content", .str log_content)]))
      else
        pure (String.intercalate "\n" [
          "# 任务尝试日志: " ++ p.log_type.value,
          "",
          "## 日志信息",
          "| 属性 | 值 |",
          "|------|-----|",
          "| 作业 ID | `" ++ p.job_id ++ "` |",
          "| 任务 ID | `" ++ p.task_id ++ "` |",
          "| 尝试 ID | `" ++ p.attempt_id ++ "` |",
          "| 容器 ID | `" ++ container_id.pyStrOf ++ "` |",
          "| 节点 | " ++ node_manager ++ " |",
          "| 用户 | " ++ user.pyStrOf ++ " |",
          "| 日志类型 | " ++ p.log_type.value ++ " |",
          "",
          "## 日志内容",
          "```",
          log_content,
          "```"])

/-- `jobhistory_get_task_attempt_logs`. -/
def jobhistory_get_task_attempt_logs (p : GetTaskAttemptLogsInput)
    (attemptFetch jobFetch : Except PyExc Json) (htmlFetch : Except PyExc String) :
    String :=
  runHandler (getTaskAttemptLogsBody p attemptFetch jobFetch htmlFetch)

/-- Body of ` jobhistory_get_task_attempt_logs_partial`. -/
def getTaskAttemptLogsPartialBody (p : GetTaskAttemptLogsPartialInput)
    (attemptFetch jobFetch : Except PyExc Json) (htmlFetch : Except PyExc String) :
    Except PyExc String := do
  let attempt_data ← attemptFetch
  let attempt ← attempt_data.pyGetD "taskAttempt" (.obj [])
  let container_id ← attempt.pyGet1 "assignedContainerId"
  let node_http_address ← attempt.pyGet1 "nodeHttpAddress"
  if !container_id.pyTruthy then
    pure containerErrMsg
  else if !node_http_address.pyTruthy then
    pure nodeErrMsg
  else do
    let job_data ← jobFetch
    let job ← job_data.pyGetD "job" (.obj [])
    let user ← job.pyGet1 "user"
    if !user.pyTruthy then
      pure userErrMsg
    else do
      let nodeStr ← node_http_address.asStr
      let node_manager := _extract_hostname nodeStr ++ ":" ++ NODEMANAGER_PORT
      let log_url := logUrlRange LOGS_BASE_URL node_manager container_id.pyStrOf
        p.attempt_id user.pyStrOf p.log_type.value p.start p.end_pos
      let html_content ← htmlFetch
      let log_content := _extract_pre_content html_content
      if log_content.isEmpty then
        pure ("日志为空或无法解析日志内容。\n\n**日志 URL**: " ++ log_url)
      else
        let range_desc :=
          if p.start < 0 then "末尾 " ++ toString p.start.natAbs ++ " 字节"
          else if p.end_pos = 0 then "从 " ++ toString p.start ++ " 字节到末尾"
          else toString p.start ++ " - " ++ toString p.end_pos ++ " 字节"
        if p.response_format = ResponseFormat.json then
          pure (pyDumpsInd 0 (.obj [
            ("job_id", .str p.job_id),
            ("task_id", .str p.task_id),
            ("attempt_id", .str p.attempt_id),
            ("container_id", container_id),
            ("node_manager", .str node_manager),
            ("user", user),
            ("log_type", .str p.log_type.value),
            ("byte_range", .obj [
              ("start", .num p.start),
              ("end", .num p.end_pos),
              ("description", .str range_desc)]),
            ("log_url", .str log_url),
            ("content_length", .num (log_content.length : Int)),
            ("content", .str log_content)]))
        else
          pure (String.intercalate "\n" [
            "# 任务尝试日志（部分）: " ++ p.log_type.value,
            "",
            "## 日志信息",
            "| 属性 | 值 |",
            "|------|-----|",
            "| 作业 ID | `" ++ p.job_id ++ "` |",
            "| 任务 ID | `" ++ p.task_id ++ "` |",
            "| 尝试 ID | `" ++ p.attempt_id ++ "` |",
            "| 容器 ID | `" ++ container_id.pyStrOf ++ "` |",
            "| 节点 | " ++ node_manager ++ " |",
            "| 用户 | " ++ user.pyStrOf ++ " |",
            "| 日志类型 | " ++ p.log_type.value ++ " |",
            "| 读取范围 | " ++ range_desc ++ " |",
            "| 内容长度 | " ++ toString log_content.length ++ " 字节 |",
            "",
            "## 日志内容",
            "```",
            log_content,
            "```",
            "",
            "*提示：如需完整日志，请使用 `jobhistory_get_task_attempt_logs` 工具*"])

/-- ` jobhistory_get_task_attempt_logs_partial`. -/
def jobhistory_get_task_attempt_logs_partial (p : GetTaskAttemptLogsPartialInput)
    (attemptFetch jobFetch : Except PyExc Json) (htmlFetch : Except PyExc String) :
    String :=
  runHandler (getTaskAttemptLogsPartialBody p attemptFetch jobFetch htmlFetch)


/-- A task-attempt detail payload carrying the two fields the log
handlers read. -/
def attDetail (con nod : String) : Json :=
  .obj [("taskAttempt", .obj [("assignedContainerId", .str con),
                              ("nodeHttpAddress", .str nod)])]

/-- A job detail payload carrying the owning user. -/
def jobDetail (usr : String) : Json :=
  .obj [("job", .obj [("user", .str usr)])]

/-- An attempt detail payload lacking `assignedContainerId`. -/
def attDetailNoCon (nod : String) : Json :=
  .obj [("taskAttempt", .obj [("nodeHttpAddress", .str nod)])]

/-- An attempt detail payload lacking `nodeHttpAddress`. -/
def attDetailNoNode (con : String) : Json :=
  .obj [("taskAttempt", .obj [("assignedContainerId", .str con)])]

/-- A job detail payload lacking `user`. -/
def jobDetailNoUser : Json :=
  .obj [("job", .obj [])]

/-- A concrete full-logs input used to evaluate the handlers. -/
def cexLogsInput : GetTaskAttemptLogsInput :=
  { job_id := "job_1_1", task_id := "task_1_1_m_0",
    attempt_id := "attempt_1_1_m_0_0", log_type := .stdout,
    response_format := .markdown }

/-- A concrete partial-logs input used to evaluate the handlers. -/
def cexLogsPartialInput : GetTaskAttemptLogsPartialInput :=
  { job_id := "job_1_1", task_id := "task_1_1_m_0",
    attempt_id := "attempt_1_1_m_0_0", log_type := .syslog,
    start := -4096, end_pos := 0, response_format := .markdown }

/-- A concrete job-detail input used to evaluate the handlers. -/
def cexGetJobInput : GetJobInput :=
  { job_id := "job_1_1", response_format := .markdown }

/-! ## Theorems for claims C4 and C5 -/

/-- C4: the claim says `_format_timestamp` and `_format_duration` return
`"N/A"` for every `ms ≤ 0` and never raise on any integer.  The sentinel
part holds, but the no-raise part is violated by the code: the `try`
block catches only `(ValueError, OSError)`, while
`datetime.fromtimestamp(ms / 1000)` raises `OverflowError` for huge
integers (at `ms = 10^400` the true division itself overflows the float
range).  This theorem evaluates the model at the failing input, and also
records that the sentinel branch and `_format_duration` behave as
claimed. -/
theorem format_timestamp_overflow_escapes :
    _format_timestamp (10 ^ 400) =
      .error (.overflowError "integer division result too large for a float") ∧
    _format_timestamp 0 = .ok "N/A" ∧
    _format_timestamp (-5) = .ok "N/A" ∧
    _format_duration 0 = "N/A" ∧
    _format_duration (-5) = "N/A" := by
  refine ⟨?_, by rfl, by rfl, by decide, by decide⟩
  have hpos : ¬((10 : Int) ^ 400 ≤ 0) := not_le.mpr (by positivity)
  have hbig : 1000 * FLOAT_OVERFLOW_BOUND ≤ (10 : Int) ^ 400 ∨
      (10 : Int) ^ 400 ≤ -(1000 * FLOAT_OVERFLOW_BOUND) :=
    Or.inl (by norm_num [FLOAT_OVERFLOW_BOUND])
  unfold _format_timestamp pyFromtimestampMs
  rw [if_neg hpos, if_pos hbig]

/-- C5: `_format_duration` has exactly three tiers with boundaries exact
at 60 and 3600 seconds, truncating `ms` to whole seconds: writing the
input as whole seconds plus a sub-second remainder `r < 1000`, the
remainder never shows, and the seconds value decomposes into the
displayed hour/minute/second fields; the cited boundary examples
evaluate as stated. -/
theorem format_duration_three_tiers :
    (∀ s r : Int, 0 < s → s < 60 → 0 ≤ r → r < 1000 →
        _format_duration (1000 * s + r) = toString s ++ "秒") ∧
    (∀ m sec r : Int, 1 ≤ m → m < 60 → 0 ≤ sec → sec < 60 → 0 ≤ r → r < 1000 →
        _format_duration (1000 * (60 * m + sec) + r) =
          toString m ++ "分" ++ toString sec ++ "秒") ∧
    (∀ hrs m sec r : Int, 1 ≤ hrs → 0 ≤ m → m < 60 → 0 ≤ sec → sec < 60 →
        0 ≤ r → r < 1000 →
        _format_duration (1000 * (3600 * hrs + 60 * m + sec) + r) =
          toString hrs ++ "时" ++ toString m ++ "分" ++ toString sec ++ "秒") ∧
    _format_duration 59000 = "59秒" ∧ _format_duration 59999 = "59秒" ∧
    _format_duration 60000 = "1分0秒" ∧ _format_duration 65000 = "1分5秒" ∧
    _format_duration 3599999 = "59分59秒" ∧ _format_duration 3600000 = "1时0分0秒" ∧
    _format_duration 3661000 = "1时1分1秒" := by
  refine ⟨?_, ?_, ?_, by decide, by decide, by decide, by decide, by decide,
    by decide, by decide⟩
  · intro s r h1 h2 h3 h4
    have hms : ¬(1000 * s + r ≤ 0) := by omega
    simp only [_format_duration, pyFloorDiv, pyMod, if_neg hms]
    rw [Int.fdiv_eq_ediv _ (by norm_num)]
    have hdiv : (1000 * s + r) / 1000 = s := by omega
    rw [hdiv, if_pos h2]
  · intro m sec r h1 h2 h3 h4 h5 h6
    have hms : ¬(1000 * (60 * m + sec) + r ≤ 0) := by omega
    simp only [_format_duration, pyFloorDiv, pyMod, if_neg hms]
    rw [Int.fdiv_eq_ediv _ (by norm_num)]
    have hdiv : (1000 * (60 * m + sec) + r) / 1000 = 60 * m + sec := by omega
    rw [hdiv]
    have hn1 : ¬(60 * m + sec < 60) := by omega
    have hy2 : 60 * m + sec < 3600 := by omega
    rw [if_neg hn1, if_pos hy2, Int.fdiv_eq_ediv _ (by norm_num)]
    have hm : (60 * m + sec) / 60 = m := by omega
    have hs : (60 * m + sec) % 60 = sec := by omega
    rw [hm, hs]
  · intro hrs m sec r h1 h2 h3 h4 h5 h6 h7
    have hms : ¬(1000 * (3600 * hrs + 60 * m + sec) + r ≤ 0) := by omega
    simp only [_format_duration, pyFloorDiv, pyMod, if_neg hms]
    rw [Int.fdiv_eq_ediv _ (by norm_num)]
    have hdiv : (1000 * (3600 * hrs + 60 * m + sec) + r) / 1000 =
        3600 * hrs + 60 * m + sec := by omega
    rw [hdiv]
    have hn1 : ¬(3600 * hrs + 60 * m + sec < 60) := by omega
    have hn2 : ¬(3600 * hrs + 60 * m + sec < 3600) := by omega
    rw [if_neg hn1, if_neg hn2, Int.fdiv_eq_ediv _ (by norm_num),
      Int.fdiv_eq_ediv _ (by norm_num)]
    have hh : (3600 * hrs + 60 * m + sec) / 3600 = hrs := by omega
    have hm : (3600 * hrs + 60 * m + sec) % 3600 / 60 = m := by omega
    have hs : (3600 * hrs + 60 * m + sec) % 60 = sec := by omega
    rw [hh, hm, hs]

/-- Witness for the duration-tier theorem at concrete inputs of each tier. -/
theorem format_duration_three_tiers_witness :
    _format_duration (1000 * 59 + 0) = toString (59 : Int) ++ "秒" ∧
    _format_duration (1000 * (60 * 1 + 5) + 0) =
      toString (1 : Int) ++ "分" ++ toString (5 : Int) ++ "秒" ∧
    _format_duration (1000 * (3600 * 1 + 60 * 1 + 1) + 0) =
      toString (1 : Int) ++ "时" ++ toString (1 : Int) ++ "分" ++
        toString (1 : Int) ++ "秒" :=
  ⟨format_duration_three_tiers.1 59 0 (by norm_num) (by norm_num) le_rfl (by norm_num),
   format_duration_three_tiers.2.1 1 5 0 le_rfl (by norm_num) (by norm_num)
     (by norm_num) le_rfl (by norm_num),
   format_duration_three_tiers.2.2.1 1 1 1 0 le_rfl (by norm_num) (by norm_num)
     (by norm_num) (by norm_num) le_rfl (by norm_num)⟩

/-- C6: `_extract_pre_content` returns the content of the first
`<pre>...</pre>` element, matched case-insensitively and across line
breaks, entity-decoded and trimmed; when the document has no `<pre>`
element the result is the empty string.  The first two conjuncts are the
claim's quoted examples; the third exercises case-insensitive tags, an
attribute in the opening tag, newlines inside the element, all six
entities and the trimming; the fourth shows the first element wins; the
final conjunct is the universal no-match case. -/
theorem extract_pre_content_spec :
    _extract_pre_content "<html><pre>a &amp; b</pre></html>" = "a & b" ∧
    _extract_pre_content "<html>no pre</html>" = "" ∧
    _extract_pre_content "<HTML><PRE class=x>\n c &lt;d&gt;&nbsp;&quot;&#39; \n</PRE>" =
      "c <d> \"" ++ String.mk [sq] ∧
    _extract_pre_content "<pre>first</pre><pre>second</pre>" = "first" ∧
    ∀ s : String, searchPre s.data = none → _extract_pre_content s = "" := by
  refine ⟨by decide, by decide, by decide, by decide, ?_⟩
  intro s h
  simp only [_extract_pre_content, h]

/-- Witness: the no-match branch of the extractor theorem at a concrete
document. -/
theorem extract_pre_content_spec_witness :
    _extract_pre_content "just text" = "" :=
  extract_pre_content_spec.2.2.2.2 "just text" (by decide)

/-! ## Helper lemmas for claim C7 -/

/-- A list all of whose elements satisfy the predicate is unchanged by
`takeWhile`. -/
theorem allP_takeWhile_self (p : Char → Bool) :
    ∀ xs : List Char, xs.all p = true → xs.takeWhile p = xs := by
  intro xs h
  induction xs with
  | nil => rfl
  | cons x xs ih =>
      simp only [List.all_cons, Bool.and_eq_true] at h
      simp [List.takeWhile_cons, h.1, ih h.2]

/-- When the left part already contains a failing element, `takeWhile`
of an append stops inside the left part. -/
theorem takeWhile_append_stop (p : Char → Bool) :
    ∀ xs ys : List Char, xs.all p = false →
      (xs ++ ys).takeWhile p = xs.takeWhile p := by
  intro xs ys h
  induction xs with
  | nil => simp at h
  | cons x xs ih =>
      by_cases hx : p x = true
      · simp only [List.all_cons, hx, Bool.true_and] at h
        simp [List.takeWhile_cons, hx, ih h]
      · simp only [Bool.not_eq_true] at hx
        simp [List.takeWhile_cons, hx]

/-- When the left part fully satisfies the predicate, `takeWhile` of an
append continues into the right part. -/
theorem takeWhile_append_go (p : Char → Bool) :
    ∀ xs ys : List Char, xs.all p = true →
      (xs ++ ys).takeWhile p = xs ++ ys.takeWhile p := by
  intro xs ys h
  induction xs with
  | nil => simp
  | cons x xs ih =>
      simp only [List.all_cons, Bool.and_eq_true] at h
      simp [List.takeWhile_cons, h.1, ih h.2]

/-- Python `split` never yields an empty piece list. -/
theorem splitOnDot_ne_nil : ∀ cs : List Char, splitOnDot cs ≠ [] := by
  intro cs
  cases cs with
  | nil => simp [splitOnDot]
  | cons c cs =>
      simp only [splitOnDot]
      by_cases h : c = '.'
      · simp [h]
      · simp only [h, if_false]
        cases splitOnDot cs <;> simp

/-- Splitting a dot-free list yields the list itself as the only piece. -/
theorem splitOnDot_no_dot : ∀ cs : List Char, cs.contains '.' = false →
    splitOnDot cs = [cs] := by
  intro cs h
  induction cs with
  | nil => rfl
  | cons c cs ih =>
      simp only [List.contains_cons, Bool.or_eq_false_iff] at h
      have hc : ¬(c = '.') := by
        intro hc; subst hc; simp at h
      simp only [splitOnDot, hc, if_false]
      rw [ih h.2]

/-- A single piece out of `splitOnDot` means the input had no dot. -/
theorem splitOnDot_singleton : ∀ (cs g : List Char), splitOnDot cs = [g] →
    cs.contains '.' = false := by
  intro cs
  induction cs with
  | nil => intro g _; rfl
  | cons c cs ih =>
      intro g hg
      by_cases hc : c = '.'
      · subst hc
        simp only [splitOnDot, if_pos rfl] at hg
        have h0 : splitOnDot cs = [] := by
          injection hg with h1 h2
        exact absurd h0 (splitOnDot_ne_nil cs)
      · simp only [splitOnDot, hc, if_false] at hg
        rcases hr : splitOnDot cs with _ | ⟨g2, gs2⟩
        · exact absurd hr (splitOnDot_ne_nil cs)
        · rw [hr] at hg
          injection hg with h1 h2
          have hcs := ih g2 (by rw [hr, h2])
          simp only [List.contains_cons, hcs]
          refine Bool.or_eq_false_iff.mpr ⟨?_, rfl⟩
          simp only [beq_eq_false_iff_ne, ne_eq]
          exact fun habs => hc habs.symm

/-- The default value of `getLastD` is irrelevant on a nonempty list. -/
theorem getLastD_irrel {α : Type} :
    ∀ (l : List α) (a b : α), l ≠ [] → l.getLastD a = l.getLastD b := by
  intro l a b h
  cases l with
  | nil => simp at h
  | cons x xs => rw [List.getLastD_cons, List.getLastD_cons]

/-- Dot-freeness as an `all` statement over the reversed list. -/
theorem contains_reverse_all (cs : List Char) :
    cs.reverse.all (fun c => c != '.') = !cs.contains '.' := by
  induction cs with
  | nil => rfl
  | cons c cs ih =>
      simp only [List.reverse_cons, List.all_append, List.contains_cons, ih]
      by_cases hc : c = '.'
      · subst hc; simp
      · have h1 : (c != '.') = true := by simp [hc]
        have h2 : ('.' == c) = false := by
          simp only [beq_eq_false_iff_ne, ne_eq]
          exact fun habs => hc habs.symm
        simp [h1, h2]

/-- The last piece of a dot split is the reversed maximal dot-free
suffix: the split-based and `takeWhile`-based readings of "substring
after the last dot" agree. -/
theorem splitOnDot_getLastD : ∀ cs : List Char,
    (splitOnDot cs).getLastD [] =
      (cs.reverse.takeWhile (fun c => c != '.')).reverse := by
  intro cs
  induction cs with
  | nil => rfl
  | cons c cs ih =>
      simp only [List.reverse_cons]
      by_cases hdot : cs.contains '.' = true
      · have hall : cs.reverse.all (fun c => c != '.') = false := by
          rw [contains_reverse_all, hdot]; rfl
        rw [takeWhile_append_stop _ _ _ hall]
        by_cases hc : c = '.'
        · subst hc
          have hsplit : splitOnDot ('.' :: cs) = [] :: splitOnDot cs := by
            simp [splitOnDot]
          rw [hsplit, List.getLastD_cons, ← ih]
        · rcases hg : splitOnDot cs with _ | ⟨g, gs⟩
          · exact absurd hg (splitOnDot_ne_nil cs)
          · have hsplit : splitOnDot (c :: cs) = (c :: g) :: gs := by
              simp only [splitOnDot, hc, if_false, hg]
            have hgs : gs ≠ [] := by
              intro hnil
              subst hnil
              have h0 := splitOnDot_singleton cs g hg
              rw [h0] at hdot
              exact Bool.false_ne_true hdot
            rw [hsplit, List.getLastD_cons, ← ih, hg, List.getLastD_cons]
            exact getLastD_irrel _ _ _ hgs
      · have hnd : cs.contains '.' = false := by simpa using hdot
        have hall : cs.reverse.all (fun c => c != '.') = true := by
          rw [contains_reverse_all, hnd]; rfl
        rw [takeWhile_append_go _ _ _ hall]
        by_cases hc : c = '.'
        · subst hc
          have hsplit : splitOnDot ('.' :: cs) = [] :: splitOnDot cs := by
            simp [splitOnDot]
          rw [hsplit, List.getLastD_cons, splitOnDot_no_dot cs hnd,
            List.getLastD_cons, List.getLastD_nil]
          have ht : List.takeWhile (fun c => c != '.') ['.'] = [] := by decide
          rw [ht, List.append_nil]
          simp
        · rcases hg : splitOnDot cs with _ | ⟨g, gs⟩
          · exact absurd hg (splitOnDot_ne_nil cs)
          · have hsplit : splitOnDot (c :: cs) = (c :: g) :: gs := by
              simp only [splitOnDot, hc, if_false, hg]
            have hsingle := splitOnDot_no_dot cs hnd
            rw [hsingle] at hg
            injection hg with h1 h2
            subst h1; subst h2
            rw [hsplit, List.getLastD_cons, List.getLastD_nil]
            have hcp : (c != '.') = true := by simp [hc]
            simp [List.takeWhile_cons, hcp]

/-- The two display-name computations agree on every JSON value. -/
theorem shortNameJ_eq : ∀ j : Json, codeShortNameJ j = specShortNameJ j := by
  intro j
  cases j with
  | str s =>
      simp only [codeShortNameJ, specShortNameJ, codeShortName, specAfterLastDot,
        splitOnDot_getLastD]
  | null => rfl
  | bool b => rfl
  | num n => rfl
  | arr l => rfl
  | obj l => rfl

/-- The two counter-line renderers agree on every JSON value. -/
theorem counterLine_eq (c : Json) : formatCounterLine c = specCounterLine c := by
  cases c with
  | obj entries =>
      simp only [formatCounterLine, specCounterLine, Json.pyGetD, Json.pyGet1]
      cases htv : jsonLookup "totalCounterValue" entries <;>
        cases hv : jsonLookup "value" entries <;>
          simp [htv, hv, Except.bind, Option.getD, bind]
  | null => rfl
  | bool b => rfl
  | num n => rfl
  | str s => rfl
  | arr l => rfl

/-- The two counter-loop renderers agree on every list. -/
theorem renderCounterLines_eq :
    ∀ l : List Json, renderCounterLines l = specRenderCounterLines l := by
  intro l
  induction l with
  | nil => rfl
  | cons c rest ih =>
      simp only [renderCounterLines, specRenderCounterLines, counterLine_eq, ih]

/-- The two group renderers agree on every JSON value. -/
theorem renderGroup_eq (g : Json) : renderGroup g = specRenderGroup g := by
  simp only [renderGroup, specRenderGroup, shortNameJ_eq, renderCounterLines_eq]

/-- The two group-loop renderers agree on every list. -/
theorem renderGroups_eq :
    ∀ l : List Json, renderGroups l = specRenderGroups l := by
  intro l
  induction l with
  | nil => rfl
  | cons g rest ih =>
      simp only [renderGroups, specRenderGroups, renderGroup_eq, ih]

/-- C7 (amended): the counters formatter equals the specification-side
formatter whose group list is the first of the three alternative keys
holding a truthy (present and non-empty) value, whose group display
name is the substring after the last dot, whose counter total prefers
the direct total field then the generic value field then 0, and which
appends the map/reduce pair exactly when both are non-null. -/
theorem format_counters_matches_amended_spec :
    ∀ (d : Json) (t : String),
      _format_counters_markdown d t = formatCountersSpec d t := by
  intro d t
  cases d with
  | obj entries =>
      simp only [_format_counters_markdown, formatCountersSpec, specChooseGroups,
        Json.pyGetD, List.map, List.find?, List.getLastD_cons, List.getLastD_nil,
        renderGroups_eq]
      cases h1 : ((jsonLookup "counterGroup" entries).getD (.arr [])).pyTruthy <;>
        cases h2 : ((jsonLookup "taskCounterGroup" entries).getD (.arr [])).pyTruthy <;>
          cases h3 : ((jsonLookup "taskAttemptCounterGroup" entries).getD (.arr [])).pyTruthy <;>
            simp [h1, h2, h3, Except.bind, bind, pure, Except.pure, renderGroups_eq]
  | null => rfl
  | bool b => rfl
  | num n => rfl
  | str s => rfl
  | arr l => rfl

/-- C7 counterexample: on a payload whose `counterGroup` key is present
(holding an empty list) while `taskCounterGroup` holds a group, the code
renders the `taskCounterGroup` group, while the claim as stated (use
whichever key is present, preferring the first) renders no group at
all: the claim is false on this input. -/
theorem format_counters_present_key_counterexample :
    jsonLookup "counterGroup" cexCountersEntries = some (.arr []) ∧
    formatCountersClaim cexCountersData "T" = .ok "# T\n" ∧
    _format_counters_markdown cexCountersData "T" ≠
      formatCountersClaim cexCountersData "T" := by
  refine ⟨by rfl, by rfl, ?_⟩
  decide

/-- C8 counterexample: on a validated input with
`started_time_begin = 0`, the built query omits `startedTimeBegin`
(the code's `if params.started_time_begin:` is a truthiness test),
while the claim says every present non-null field appears; `limit = 20`
does appear, showing the query is otherwise populated. -/
theorem list_jobs_query_zero_field_omitted :
    cexListJobsInput.started_time_begin = some 0 ∧
    (buildListJobsQuery cexListJobsInput).lookup "startedTimeBegin" = none ∧
    (buildListJobsQuery cexListJobsInput).lookup "limit" = some (Json.num 20) := by
  refine ⟨rfl, rfl, rfl⟩

/-- A string field's truthiness guard agrees with its table projection. -/
theorem seg_str_eq (k : String) (o : Option String) :
    (match o with
     | some u => if !u.isEmpty then [(k, Json.str u)] else []
     | none => ([] : List (String × Json))) =
    (match truthyStr o with
     | some v => [(k, v)]
     | none => []) := by
  cases o with
  | none => rfl
  | some u => by_cases hu : u.isEmpty <;> simp [truthyStr, hu]

/-- An int field's truthiness guard agrees with its table projection. -/
theorem seg_int_eq (k : String) (o : Option Int) :
    (match o with
     | some t => if t != 0 then [(k, Json.num t)] else []
     | none => ([] : List (String × Json))) =
    (match truthyInt o with
     | some v => [(k, v)]
     | none => []) := by
  cases o with
  | none => rfl
  | some t => by_cases ht : t = 0 <;> simp [truthyInt, ht]

/-- The state field (an enum, always truthy when present) agrees with
its table projection. -/
theorem seg_state_eq (k : String) (o : Option JobState) :
    (match o with
     | some st => [(k, Json.str st.value)]
     | none => ([] : List (String × Json))) =
    (match o.map (fun st => Json.str st.value) with
     | some v => [(k, v)]
     | none => []) := by
  cases o <;> rfl

/-- C8 (amended): for every listing input, the built query holds
exactly the optional filter fields whose values are Python-truthy
(non-null, non-empty string, non-zero integer), each mapped to its
upstream parameter name, in source order. -/
theorem list_jobs_query_matches_truthy_table :
    ∀ p : ListJobsInput, buildListJobsQuery p = specListJobsQuery p := by
  intro p
  simp only [buildListJobsQuery, specListJobsQuery, listJobsQueryTable,
    List.flatMap_cons, List.flatMap_nil, List.append_nil,
    seg_str_eq, seg_int_eq, seg_state_eq, List.append_assoc]

/-! ## Helper lemmas for claim C9: decimal digits and literals -/

/-- Skipping whitespace is the identity on a non-whitespace head. -/
theorem skipWs_cons_notWs {c : Char} (h : wsChar c = false) (cs : List Char) :
    skipWs (c :: cs) = c :: cs := by
  simp [skipWs, List.dropWhile_cons, h]

/-- Digit characters are digits. -/
theorem digitCh_isDigit (n : Nat) : isDigitCh (digitCh n) = true := by
  simp only [digitCh]
  split <;> decide

/-- Reading a digit character back yields its value. -/
theorem digitCh_val {n : Nat} (h : n < 10) : (digitCh n).toNat - 48 = n := by
  interval_cases n <;> decide

/-- The digit emitter only grows its accumulator on the left. -/
theorem natDigitsGo_acc : ∀ (fuel n : Nat) (acc : List Char),
    natDigitsGo fuel n acc = natDigitsGo fuel n [] ++ acc := by
  intro fuel
  induction fuel with
  | zero => intro n acc; simp [natDigitsGo]
  | succ f ih =>
      intro n acc
      by_cases h : n < 10
      · simp [natDigitsGo, h]
      · simp only [natDigitsGo, h, if_false]
        rw [ih (n / 10) (digitCh (n % 10) :: acc), ih (n / 10) [digitCh (n % 10)]]
        simp

/-- Any sufficient fuel yields the same digits. -/
theorem natDigitsGo_extra : ∀ (n f1 f2 : Nat) (acc : List Char),
    n < f1 → n < f2 → natDigitsGo f1 n acc = natDigitsGo f2 n acc := by
  intro n
  induction n using Nat.strong_induction_on with
  | _ n ih =>
      intro f1 f2 acc h1 h2
      cases f1 with
      | zero => omega
      | succ g1 =>
          cases f2 with
          | zero => omega
          | succ g2 =>
              by_cases h : n < 10
              · simp [natDigitsGo, h]
              · simp only [natDigitsGo, h, if_false]
                exact ih (n / 10) (by omega) g1 g2 _ (by omega) (by omega)

/-- The digit emitter starts with a digit whenever it has fuel. -/
theorem natDigitsGo_head : ∀ (fuel n : Nat) (acc : List Char),
    ∃ d ds, natDigitsGo (fuel + 1) n acc = d :: ds ∧ isDigitCh d = true := by
  intro fuel
  induction fuel with
  | zero =>
      intro n acc
      by_cases h : n < 10
      · exact ⟨digitCh n, acc, by simp [natDigitsGo, h], digitCh_isDigit n⟩
      · exact ⟨digitCh (n % 10), acc, by simp [natDigitsGo, h], digitCh_isDigit _⟩
  | succ f ih =>
      intro n acc
      by_cases h : n < 10
      · exact ⟨digitCh n, acc, by simp [natDigitsGo, h], digitCh_isDigit n⟩
      · simp only [natDigitsGo, h, if_false]
        exact ih (n / 10) (digitCh (n % 10) :: acc)

/-- A decimal rendering is a nonempty digit string. -/
theorem natDigits_head (n : Nat) :
    ∃ d ds, natDigits n = d :: ds ∧ isDigitCh d = true := by
  cases n with
  | zero => exact ⟨'0', [], rfl, by decide⟩
  | succ m => exact natDigitsGo_head (m + 1) (m + 1) []

/-- Every character the digit emitter produces is a digit. -/
theorem natDigits_all : ∀ (fuel n : Nat) (acc : List Char),
    acc.all isDigitCh = true → (natDigitsGo fuel n acc).all isDigitCh = true := by
  intro fuel
  induction fuel with
  | zero => intro n acc h; simpa [natDigitsGo] using h
  | succ f ih =>
      intro n acc h
      by_cases hn : n < 10
      · simp [natDigitsGo, hn, List.all_cons, digitCh_isDigit, h]
      · simp only [natDigitsGo, hn, if_false]
        exact ih (n / 10) _ (by simp [List.all_cons, digitCh_isDigit, h])

/-- Unfolding of the emitter on a multi-digit value. -/
theorem natDigitsGo_step (n : Nat) (h : ¬n < 10) (f : Nat) (acc : List Char) :
    natDigitsGo (f + 1) n acc = natDigitsGo f (n / 10) (digitCh (n % 10) :: acc) := by
  simp [natDigitsGo, h]

/-- Folding the emitted digits back recovers the number. -/
theorem natDigits_readback : ∀ n : Nat,
    (natDigits n).foldl (fun a c => a * 10 + (c.toNat - 48)) 0 = n := by
  intro n
  induction n using Nat.strong_induction_on with
  | _ n ih =>
      by_cases h : n < 10
      · simp only [natDigits, natDigitsGo, h, if_true, List.foldl_cons, List.foldl_nil]
        rw [digitCh_val h]
        omega
      · have hrec : natDigits n = natDigits (n / 10) ++ [digitCh (n % 10)] := by
          have s1 : natDigits n = natDigitsGo n (n / 10) [digitCh (n % 10)] :=
            natDigitsGo_step n h n []
          rw [s1, natDigitsGo_acc,
            natDigitsGo_extra (n / 10) n (n / 10 + 1) [] (by omega) (by omega)]
          rfl
        rw [hrec, List.foldl_append]
        simp only [List.foldl_cons, List.foldl_nil]
        rw [ih (n / 10) (by omega), digitCh_val (by omega : n % 10 < 10)]
        omega

/-- The digit consumer folds over a digit prefix. -/
theorem parseDigitsGo_prefix : ∀ (ds : List Char) (rest : List Char) (acc : Nat),
    ds.all isDigitCh = true →
    parseDigitsGo (ds ++ rest) acc =
      parseDigitsGo rest (ds.foldl (fun a c => a * 10 + (c.toNat - 48)) acc) := by
  intro ds
  induction ds with
  | nil => intro rest acc _; rfl
  | cons d ds ih =>
      intro rest acc h
      simp only [List.all_cons, Bool.and_eq_true] at h
      simp only [List.cons_append, parseDigitsGo, h.1, if_true, List.foldl_cons]
      exact ih rest _ h.2

/-- The digit consumer stops at a non-digit. -/
theorem parseDigitsGo_stop : ∀ (rest : List Char) (acc : Nat),
    headDigit rest = false → parseDigitsGo rest acc = (acc, rest) := by
  intro rest acc h
  cases rest with
  | nil => rfl
  | cons c cs =>
      simp only [headDigit] at h
      simp [parseDigitsGo, h]

/-- A natural-number literal parses back to the number it renders. -/
theorem parseNumNat_natDigits (n : Nat) (rest : List Char)
    (hb : headDigit rest = false) :
    parseNumNat (natDigits n ++ rest) = some (n, rest) := by
  obtain ⟨d, ds, hds, hd⟩ := natDigits_head n
  rw [hds]
  simp only [List.cons_append, parseNumNat, hd, if_true]
  rw [← List.cons_append, ← hds]
  rw [ parseDigitsGo_prefix (natDigits n) rest 0 (natDigits_all (n + 1) n [] rfl),
    parseDigitsGo_stop rest _ hb, natDigits_readback]

/-- A token boundary is neither a digit nor a float continuation. -/
theorem boundary_not_digit {rest : List Char} (hb : tokenBoundary rest = true) :
    headDigit rest = false ∧ isFloatStart rest = false := by
  cases rest with
  | nil => exact ⟨rfl, rfl⟩
  | cons c cs =>
      simp only [tokenBoundary, Bool.or_eq_true, decide_eq_true_eq] at hb
      rcases hb with (h | h) | h <;> subst h <;>
        exact ⟨by simp [headDigit, isDigitCh], by simp [isFloatStart]⟩

/-- A digit head is not a minus sign. -/
theorem digit_headIs_minus {d : Char} (hd : isDigitCh d = true) (l : List Char) :
    headIs (d :: l) '-' = false := by
  simp only [headIs, decide_eq_false_iff_not]
  intro he
  rw [he] at hd
  exact absurd hd (by decide)

/-- An integer literal parses back to the value it renders. -/
theorem parseIntTok_intDump (n : Int) (rest : List Char)
    (hb : tokenBoundary rest = true) :
    parseIntTok (intDump n ++ rest) = some (n, rest) := by
  obtain ⟨hbd, hbf⟩ := boundary_not_digit hb
  by_cases hn : n < 0
  · simp only [intDump, hn, if_true, List.cons_append, parseIntTok, headIs]
    simp only [decide_eq_true_eq, if_true, List.tail_cons]
    rw [parseNumNat_natDigits n.natAbs rest hbd]
    simp only [hbf, Bool.false_eq_true, if_false]
    have habs : ((n.natAbs : Int)) = -n := Int.ofNat_natAbs_of_nonpos (by omega)
    rw [habs, neg_neg]
  · simp only [intDump, hn, if_false]
    obtain ⟨d, ds, hds, hd⟩ := natDigits_head n.natAbs
    rw [hds, List.cons_append, parseIntTok, digit_headIs_minus hd]
    simp only [Bool.false_eq_true, if_false]
    rw [← List.cons_append, ← hds, parseNumNat_natDigits n.natAbs rest hbd]
    simp only [hbf, Bool.false_eq_true, if_false]
    have habs : ((n.natAbs : Int)) = n := Int.natAbs_of_nonneg (by omega)
    rw [habs]

/-! ## Helper lemmas for claim C9: string literals -/

/-- Reading a hex digit character back yields its value. -/
theorem hexVal_hexCh {k : Nat} (h : k < 16) : hexVal (hexCh k) = some k := by
  interval_cases k <;> decide

/-- Unfolding of the string parser at a `\u` escape. -/
theorem parseStrGo_u (f : Nat) (X : List Char) :
    parseStrGo (f + 1) ('\\' :: 'u' :: X) =
      match parseHex4 X with
      | some (h, r2) =>
          if 0xD800 ≤ h ∧ h ≤ 0xDBFF then
            match r2 with
            | '\\' :: 'u' :: r3 =>
                match parseHex4 r3 with
                | some (l, r4) =>
                    if 0xDC00 ≤ l ∧ l ≤ 0xDFFF then
                      consMap (Char.ofNat (0x10000 + (h - 0xD800) * 0x400 + (l - 0xDC00)))
                        (parseStrGo f r4)
                    else none
                | none => none
            | _ => none
          else if 0xDC00 ≤ h ∧ h ≤ 0xDFFF then none
          else consMap (Char.ofNat h) (parseStrGo f r2)
      | none => none := rfl

/-- Four hex digits written `00XX` parse to their byte value. -/
theorem parseHex4_zeros {m : Nat} (hm : m < 256) (R : List Char) :
    parseHex4 ('0' :: '0' :: hexCh (m / 16) :: hexCh (m % 16) :: R) = some (m, R) := by
  simp only [parseHex4, show hexVal '0' = some 0 from rfl,
    hexVal_hexCh (show m / 16 < 16 by omega), hexVal_hexCh (show m % 16 < 16 by omega)]
  have harith : ((0 * 16 + 0) * 16 + m / 16) * 16 + m % 16 = m := by omega
  rw [harith]

/-- A serialised string body parses back to its characters, consuming
the closing quote. -/
theorem parseStr_roundtrip : ∀ (cs : List Char) (fuel : Nat) (rest : List Char),
    cs.length + 1 ≤ fuel →
    parseStrGo fuel (dumpStrChars cs ++ '"' :: rest) = some (cs, rest) := by
  intro cs
  induction cs with
  | nil =>
      intro fuel rest hf
      cases fuel with
      | zero => omega
      | succ f => simp [dumpStrChars, parseStrGo]
  | cons c cs ih =>
      intro fuel rest hf
      cases fuel with
      | zero => omega
      | succ f =>
          simp only [List.length_cons] at hf
          by_cases hq : c = '"'
          · subst hq
            have hd : dumpStrChars ('"' :: cs) ++ '"' :: rest =
                '\\' :: '"' :: (dumpStrChars cs ++ '"' :: rest) := rfl
            have hstep : parseStrGo (f + 1) ('\\' :: '"' :: (dumpStrChars cs ++ '"' :: rest)) =
                consMap '"' (parseStrGo f (dumpStrChars cs ++ '"' :: rest)) := rfl
            rw [hd, hstep]
            rw [ih f rest (by omega)]
            rfl
          · by_cases hbs : c = '\\'
            · subst hbs
              have hd : dumpStrChars ('\\' :: cs) ++ '"' :: rest =
                  '\\' :: '\\' :: (dumpStrChars cs ++ '"' :: rest) := rfl
              have hstep : parseStrGo (f + 1) ('\\' :: '\\' :: (dumpStrChars cs ++ '"' :: rest)) =
                  consMap '\\' (parseStrGo f (dumpStrChars cs ++ '"' :: rest)) := rfl
              rw [hd, hstep]
              rw [ih f rest (by omega)]
              rfl
            · by_cases hctl : c.toNat < 32
              · have hd : dumpStrChars (c :: cs) ++ '"' :: rest =
                    '\\' :: 'u' :: '0' :: '0' :: hexCh (c.toNat / 16) ::
                      hexCh (c.toNat % 16) :: (dumpStrChars cs ++ '"' :: rest) := by
                  simp only [dumpStrChars, escChar, hq, hbs, hctl, if_false, if_true,
                    List.cons_append, List.append_assoc, List.nil_append]
                rw [hd, parseStrGo_u]
                simp only [parseHex4_zeros (by omega : c.toNat < 256)
                  (dumpStrChars cs ++ '"' :: rest)]
                rw [if_neg (by omega : ¬(0xD800 ≤ c.toNat ∧ c.toNat ≤ 0xDBFF)),
                  if_neg (by omega : ¬(0xDC00 ≤ c.toNat ∧ c.toNat ≤ 0xDFFF))]
                rw [ih f rest (by omega)]
                simp [consMap, Char.ofNat_toNat]
              · have hd : dumpStrChars (c :: cs) ++ '"' :: rest =
                    c :: (dumpStrChars cs ++ '"' :: rest) := by
                  simp only [dumpStrChars, escChar, hq, hbs, hctl, if_false,
                    List.cons_append, List.singleton_append, List.nil_append]
                rw [hd]
                simp only [parseStrGo]
                rw [if_neg hq, if_neg hbs, if_neg hctl]
                rw [ih f rest (by omega)]
                rfl

theorem dumpStr_len_ge : ∀ cs : List Char, cs.length ≤ (dumpStrChars cs).length := by
  intro cs
  induction cs with
  | nil => simp [dumpStrChars]
  | cons c cs ih =>
      have he : 1 ≤ (escChar c).length := by
        simp only [escChar]
        by_cases h1 : c = '"'
        · simp [h1]
        · by_cases h2 : c = '\\'
          · simp [h1, h2]
          · by_cases h3 : c.toNat < 32 <;> simp [h1, h2, h3]
      simp only [dumpStrChars, List.length_append, List.length_cons]
      omega

theorem digit_not_ws {d : Char} (h : isDigitCh d = true) : wsChar d = false := by
  simp only [isDigitCh, Bool.and_eq_true, decide_eq_true_eq] at h
  simp only [wsChar, Bool.or_eq_false_iff, decide_eq_false_iff_not]
  refine ⟨⟨⟨?_, ?_⟩, ?_⟩, ?_⟩ <;>
    (intro he; rw [he] at h; revert h; decide)

theorem dumpsJ_head (v : Json) :
    ∃ c cs, dumpsJ v = c :: cs ∧ wsChar c = false ∧
      c ≠ ']' ∧ c ≠ '\x7d' ∧ c ≠ ',' ∧ c ≠ ':' := by
  cases v with
  | null => exact ⟨'n', _, rfl, by decide, by decide, by decide, by decide, by decide⟩
  | bool b =>
      cases b with
      | false => exact ⟨'f', _, rfl, by decide, by decide, by decide, by decide, by decide⟩
      | true => exact ⟨'t', _, rfl, by decide, by decide, by decide, by decide, by decide⟩
  | num n =>
      by_cases hn : n < 0
      · refine ⟨'-', natDigits n.natAbs, ?_, by decide, by decide, by decide, by decide, by decide⟩
        simp [dumpsJ, intDump, hn]
      · obtain ⟨d, ds, hds, hd⟩ := natDigits_head n.natAbs
        refine ⟨d, ds, ?_, digit_not_ws hd, ?_, ?_, ?_, ?_⟩
        · simp [dumpsJ, intDump, hn, hds]
        all_goals (intro he; rw [he] at hd; exact absurd hd (by decide))
  | str s => exact ⟨'"', _, rfl, by decide, by decide, by decide, by decide, by decide⟩
  | arr l => exact ⟨'[', _, rfl, by decide, by decide, by decide, by decide, by decide⟩
  | obj l => exact ⟨'\x7b', _, rfl, by decide, by decide, by decide, by decide, by decide⟩

theorem boundary_elemsSep (vs : List Json) (rest0 : List Char) :
    tokenBoundary (dumpsElemsSep vs ++ ']' :: rest0) = true := by
  cases vs <;> simp [dumpsElemsSep, tokenBoundary]

theorem boundary_membersSep (ms : List (String × Json)) (rest0 : List Char) :
    tokenBoundary (dumpsMembersSep ms ++ '\x7d' :: rest0) = true := by
  cases ms with
  | nil => simp [dumpsMembersSep, tokenBoundary]
  | cons m ms2 =>
      obtain ⟨k, v⟩ := m
      simp [dumpsMembersSep, tokenBoundary]

theorem jfuel_pos (v : Json) : 1 ≤ jfuel v := by
  cases v <;> simp [jfuel]

theorem faB_pos (l : List Json) : 1 ≤ faB l := by
  cases l <;> simp [faB]

theorem faR_pos (l : List Json) : 1 ≤ faR l := by
  cases l <;> simp [faR]

theorem foB_pos (l : List (String × Json)) : 1 ≤ foB l := by
  cases l with
  | nil => simp [foB]
  | cons m ms => obtain ⟨k, v⟩ := m; simp [foB]

theorem foR_pos (l : List (String × Json)) : 1 ≤ foR l := by
  cases l with
  | nil => simp [foR]
  | cons m ms => obtain ⟨k, v⟩ := m; simp [foR]

theorem parse_dumps_roundtrip : ∀ fuel : Nat,
    (∀ (v : Json) (rest : List Char), tokenBoundary rest = true → jfuel v ≤ fuel →
      parseJ fuel (dumpsJ v ++ rest) = some (v, rest)) ∧
    (∀ (l : List Json) (rest : List Char), faB l ≤ fuel →
      parseArrBody fuel (dumpsElems l ++ ']' :: rest) = some (.arr l, rest)) ∧
    (∀ (vs acc : List Json) (rest : List Char), faR vs ≤ fuel →
      parseArrRest fuel (dumpsElemsSep vs ++ ']' :: rest) acc =
        some (.arr (acc.reverse ++ vs), rest)) ∧
    (∀ (ms : List (String × Json)) (rest : List Char), foB ms ≤ fuel →
      parseObjBody fuel (dumpsMembers ms ++ '\x7d' :: rest) = some (.obj ms, rest)) ∧
    (∀ (ms acc : List (String × Json)) (rest : List Char), foR ms ≤ fuel →
      parseObjRest fuel (dumpsMembersSep ms ++ '\x7d' :: rest) acc =
        some (.obj (acc.reverse ++ ms), rest)) := by
  intro fuel
  induction fuel with
  | zero =>
      refine ⟨?_, ?_, ?_, ?_, ?_⟩
      · intro v rest _ hf; have := jfuel_pos v; omega
      · intro l rest hf; have := faB_pos l; omega
      · intro vs acc rest hf; have := faR_pos vs; omega
      · intro ms rest hf; have := foB_pos ms; omega
      · intro ms acc rest hf; have := foR_pos ms; omega
  | succ f ih =>
      obtain ⟨ihP, ihQ, ihR, ihS, ihT⟩ := ih
      refine ⟨?_, ?_, ?_, ?_, ?_⟩
      · -- parseJ
        intro v rest hb hf
        cases v with
        | null => rfl
        | bool b => cases b <;> rfl
        | num n =>
            by_cases hn : n < 0
            · have hd : dumpsJ (.num n) ++ rest = '-' :: (natDigits n.natAbs ++ rest) := by
                simp [dumpsJ, intDump, hn]
              have hstep : parseJ (f + 1) ('-' :: (natDigits n.natAbs ++ rest)) =
                  (parseIntTok ('-' :: (natDigits n.natAbs ++ rest))).map
                    (fun p => (Json.num p.1, p.2)) := rfl
              rw [hd, hstep]
              have hback : '-' :: (natDigits n.natAbs ++ rest) = intDump n ++ rest := by
                simp [intDump, hn]
              rw [hback, parseIntTok_intDump n rest hb]
              rfl
            · obtain ⟨d, ds, hds, hdd⟩ := natDigits_head n.natAbs
              have hd : dumpsJ (.num n) ++ rest = d :: (ds ++ rest) := by
                simp [dumpsJ, intDump, hn, hds]
              have h1 : ¬(d = '\x7b') := fun he => by rw [he] at hdd; exact absurd hdd (by decide)
              have h2 : ¬(d = '[') := fun he => by rw [he] at hdd; exact absurd hdd (by decide)
              have h3 : ¬(d = '"') := fun he => by rw [he] at hdd; exact absurd hdd (by decide)
              have h4 : ¬(d = 't') := fun he => by rw [he] at hdd; exact absurd hdd (by decide)
              have h5 : ¬(d = 'f') := fun he => by rw [he] at hdd; exact absurd hdd (by decide)
              have h6 : ¬(d = 'n') := fun he => by rw [he] at hdd; exact absurd hdd (by decide)
              have hw : wsChar d = false := digit_not_ws hdd
              rw [hd]
              simp only [parseJ, skipWs_cons_notWs hw]
              rw [if_neg h1, if_neg h2, if_neg h3, if_neg h4, if_neg h5, if_neg h6]
              rw [show d :: (ds ++ rest) = intDump n ++ rest from by
                rw [← List.cons_append, ← hds]; simp [intDump, hn]]
              rw [parseIntTok_intDump n rest hb]
              rfl
        | str s =>
            have hd : dumpsJ (.str s) ++ rest = '"' :: (dumpStrChars s.data ++ '"' :: rest) := by
              simp [dumpsJ, List.append_assoc]
            have hstep : ∀ X : List Char, parseJ (f + 1) ('"' :: X) =
                (parseStrGo (X.length + 1) X).map
                  (fun p => (Json.str (String.mk p.1), p.2)) := fun X => rfl
            rw [hd, hstep]
            have hlen : s.data.length + 1 ≤
                (dumpStrChars s.data ++ '"' :: rest).length + 1 := by
              have := dumpStr_len_ge s.data
              simp only [List.length_append, List.length_cons]
              omega
            rw [parseStr_roundtrip s.data _ rest hlen]
            rfl
        | arr l =>
            have hd : dumpsJ (.arr l) ++ rest = '[' :: (dumpsElems l ++ ']' :: rest) := by
              simp [dumpsJ, List.append_assoc]
            have hstep : ∀ X, parseJ (f + 1) ('[' :: X) = parseArrBody f X := fun X => rfl
            rw [hd, hstep]
            exact ihQ l rest (by simp only [jfuel] at hf; omega)
        | obj l =>
            have hd : dumpsJ (.obj l) ++ rest = '\x7b' :: (dumpsMembers l ++ '\x7d' :: rest) := by
              simp [dumpsJ, List.append_assoc]
            have hstep : ∀ X, parseJ (f + 1) ('\x7b' :: X) = parseObjBody f X := fun X => rfl
            rw [hd, hstep]
            exact ihS l rest (by simp only [jfuel] at hf; omega)
      · -- parseArrBody
        intro l rest hf
        cases l with
        | nil => rfl
        | cons v vs =>
            have hd : dumpsElems (v :: vs) ++ ']' :: rest =
                dumpsJ v ++ (dumpsElemsSep vs ++ ']' :: rest) := by
              simp [dumpsElems, List.append_assoc]
            rw [hd]
            obtain ⟨c, cs, hc, hw, hne1, hne2, hne3, hne4⟩ := dumpsJ_head v
            simp only [faB] at hf
            simp only [parseArrBody]
            rw [hc, List.cons_append, skipWs_cons_notWs hw]
            have hh : headIs (c :: (cs ++ (dumpsElemsSep vs ++ ']' :: rest))) ']' = false := by
              simp only [headIs, decide_eq_false_iff_not]
              exact hne1
            simp only [hh, Bool.false_eq_true, if_false]
            rw [← List.cons_append, ← hc]
            simp only [ihP v _ (boundary_elemsSep vs rest) (by omega)]
            have hres := ihR vs [v] rest (by omega)
            rw [hres]
            simp
      · -- parseArrRest
        intro vs acc rest hf
        cases vs with
        | nil =>
            have hstep : parseArrRest (f + 1) (']' :: rest) acc =
                some (.arr acc.reverse, rest) := rfl
            simp only [dumpsElemsSep, List.nil_append, hstep]
            simp
        | cons v vs2 =>
            simp only [faR] at hf
            have hd : dumpsElemsSep (v :: vs2) ++ ']' :: rest =
                ',' :: (dumpsJ v ++ (dumpsElemsSep vs2 ++ ']' :: rest)) := by
              simp [dumpsElemsSep, List.append_assoc]
            rw [hd]
            have hstep : ∀ (X : List Char) (acc2 : List Json),
                parseArrRest (f + 1) (',' :: X) acc2 =
                  match parseJ f X with
                  | some (v2, r) => parseArrRest f r (v2 :: acc2)
                  | none => none := fun X acc2 => rfl
            rw [hstep]
            simp only [ihP v _ (boundary_elemsSep vs2 rest) (by omega)]
            have hres := ihR vs2 (v :: acc) rest (by omega)
            rw [hres]
            simp [List.reverse_cons, List.append_assoc]
      · -- parseObjBody
        intro ms rest hf
        cases ms with
        | nil => rfl
        | cons m ms2 =>
            obtain ⟨k, v⟩ := m
            simp only [foB] at hf
            have hd : dumpsMembers ((k, v) :: ms2) ++ '\x7d' :: rest =
                '"' :: (dumpStrChars k.data ++ '"' ::
                  (':' :: (dumpsJ v ++ (dumpsMembersSep ms2 ++ '\x7d' :: rest)))) := by
              simp [dumpsMembers, List.append_assoc]
            rw [hd]
            have hstep : ∀ X : List Char, parseObjBody (f + 1) ('"' :: X) =
                (match parseStrGo (X.length + 1) X with
                 | some (k2, r) =>
                     if headIs (skipWs r) ':' then
                       match parseJ f (skipWs r).tail with
                       | some (v2, r3) => parseObjRest f r3 [(String.mk k2, v2)]
                       | none => none
                     else none
                 | none => none) := fun X => rfl
            rw [hstep]
            have hlen : k.data.length + 1 ≤
                (dumpStrChars k.data ++ '"' ::
                  (':' :: (dumpsJ v ++ (dumpsMembersSep ms2 ++ '\x7d' :: rest)))).length + 1 := by
              have := dumpStr_len_ge k.data
              simp only [List.length_append, List.length_cons]
              omega
            simp only [parseStr_roundtrip k.data _ _ hlen]
            simp only [skipWs_cons_notWs (by decide : wsChar ':' = false)]
            have hcol : headIs (':' :: (dumpsJ v ++ (dumpsMembersSep ms2 ++ '\x7d' :: rest))) ':' =
                true := by simp [headIs]
            simp only [hcol, if_true, List.tail_cons]
            simp only [ihP v _ (boundary_membersSep ms2 rest) (by omega)]
            have hres := ihT ms2 [(String.mk k.data, v)] rest (by omega)
            rw [hres]
            simp
      · -- parseObjRest
        intro ms acc rest hf
        cases ms with
        | nil =>
            have hstep : parseObjRest (f + 1) ('\x7d' :: rest) acc =
                some (.obj acc.reverse, rest) := rfl
            simp only [dumpsMembersSep, List.nil_append, hstep]
            simp
        | cons m ms2 =>
            obtain ⟨k, v⟩ := m
            simp only [foR] at hf
            have hd : dumpsMembersSep ((k, v) :: ms2) ++ '\x7d' :: rest =
                ',' :: ('"' :: (dumpStrChars k.data ++ '"' ::
                  (':' :: (dumpsJ v ++ (dumpsMembersSep ms2 ++ '\x7d' :: rest))))) := by
              simp [dumpsMembersSep, List.append_assoc]
            rw [hd]
            have hstep : ∀ (X : List Char) (acc2 : List (String × Json)),
                parseObjRest (f + 1) (',' :: '"' :: X) acc2 =
                  (match parseStrGo (X.length + 1) X with
                   | some (k2, r) =>
                       if headIs (skipWs r) ':' then
                         match parseJ f (skipWs r).tail with
                         | some (v2, r3) => parseObjRest f r3 ((String.mk k2, v2) :: acc2)
                         | none => none
                       else none
                   | none => none) := fun X acc2 => rfl
            rw [hstep]
            have hlen : k.data.length + 1 ≤
                (dumpStrChars k.data ++ '"' ::
                  (':' :: (dumpsJ v ++ (dumpsMembersSep ms2 ++ '\x7d' :: rest)))).length + 1 := by
              have := dumpStr_len_ge k.data
              simp only [List.length_append, List.length_cons]
              omega
            simp only [parseStr_roundtrip k.data _ _ hlen]
            simp only [skipWs_cons_notWs (by decide : wsChar ':' = false)]
            have hcol : headIs (':' :: (dumpsJ v ++ (dumpsMembersSep ms2 ++ '\x7d' :: rest))) ':' =
                true := by simp [headIs]
            simp only [hcol, if_true, List.tail_cons]
            simp only [ihP v _ (boundary_membersSep ms2 rest) (by omega)]
            have hres := ihT ms2 ((String.mk k.data, v) :: acc) rest (by omega)
            rw [hres]
            simp [List.reverse_cons, List.append_assoc]

mutual

theorem jfuel_le_len : ∀ v : Json, jfuel v ≤ (dumpsJ v).length + 1
  | .null => by simp only [jfuel]; omega
  | .bool b => by simp only [jfuel]; omega
  | .num n => by simp only [jfuel]; omega
  | .str s => by simp only [jfuel]; omega
  | .arr l => by
      have h := faB_le_len l
      simp only [jfuel, dumpsJ, List.length_cons, List.length_append]
      omega
  | .obj l => by
      have h := foB_le_len l
      simp only [jfuel, dumpsJ, List.length_cons, List.length_append]
      omega

theorem faB_le_len : ∀ l : List Json, faB l ≤ (dumpsElems l).length + 2
  | [] => by simp only [faB]; omega
  | v :: vs => by
      have h1 := jfuel_le_len v
      have h2 := faR_le_len vs
      simp only [faB, dumpsElems, List.length_append]
      omega

theorem faR_le_len : ∀ l : List Json, faR l ≤ (dumpsElemsSep l).length + 1
  | [] => by simp only [faR]; omega
  | v :: vs => by
      have h1 := jfuel_le_len v
      have h2 := faR_le_len vs
      simp only [faR, dumpsElemsSep, List.length_cons, List.length_append]
      omega

theorem foB_le_len : ∀ l : List (String × Json), foB l ≤ (dumpsMembers l).length + 2
  | [] => by simp only [foB]; omega
  | (k, v) :: ms => by
      have h1 := jfuel_le_len v
      have h2 := foR_le_len ms
      simp only [foB, dumpsMembers, List.length_cons, List.length_append]
      omega

theorem foR_le_len : ∀ l : List (String × Json), foR l ≤ (dumpsMembersSep l).length + 1
  | [] => by simp only [foR]; omega
  | (k, v) :: ms => by
      have h1 := jfuel_le_len v
      have h2 := foR_le_len ms
      simp only [foR, dumpsMembersSep, List.length_cons, List.length_append]
      omega

end

/-- Parsing the canonical serialisation of any value recovers the
value: the model of `json.loads` inverts the serialiser. -/
theorem loads_pyJsonDumps (v : Json) : loads (pyJsonDumps v) = some v := by
  unfold loads pyJsonDumps
  have hdata : (String.mk (dumpsJ v)).data = dumpsJ v := rfl
  rw [hdata]
  have h := (parse_dumps_roundtrip ((dumpsJ v).length + 1)).1 v [] rfl
    (by have := jfuel_le_len v; omega)
  rw [List.append_nil] at h
  rw [h]
  rfl

/-- C9: the whole parameter set serialised as one JSON string is
normalised by `parse_json_string` to exactly the same object as the
structured input, so validation (and hence the handler) sees identical
data in both encodings. -/
theorem json_string_input_equivalent :
    ∀ entries : List (String × Json),
      parse_json_string (.str (pyJsonDumps (.obj entries))) = .obj entries ∧
      parse_json_string (.obj entries) = .obj entries := by
  intro entries
  constructor
  · simp only [parse_json_string, loads_pyJsonDumps (.obj entries), Option.getD_some]
  · rfl

/-! ## Theorems for claims C1, C2, C3 and C10 -/

/-- A nonempty string field is Python-truthy. -/
theorem str_pyTruthy {s : String} (h : ¬s = "") : (Json.str s).pyTruthy = true := by
  have he : s.isEmpty = false := by
    rw [← Bool.not_eq_true, String.isEmpty_iff]
    exact h
  simp [Json.pyTruthy, he]

/-- C1: the log URL is the specification path followed by the mode
query: full mode carries exactly
`start=0&start.time=0&end.time=9223372036854775807`, range mode carries
exactly the two input integers unclamped; and on an empty log page each
handler echoes exactly that URL, built from the resolved container,
node (hostname plus NodeManager port), user and log type. -/
theorem log_url_construction :
    (∀ lb nm cid aid u lt : String,
      logUrlFull lb nm cid aid u lt =
        specLogPath lb nm cid aid u lt ++
          "?start=0&start.time=0&end.time=9223372036854775807") ∧
    (∀ (lb nm cid aid u lt : String) (s e : Int),
      logUrlRange lb nm cid aid u lt s e =
        specLogPath lb nm cid aid u lt ++
          ("?start=" ++ toString s ++ "&end=" ++ toString e)) ∧
    logUrlRange "https://jh/jobhistory/logs" "node1:8052" "c_1" "a_1" "hadoop"
        "stdout" (-4096) 0 =
      "https://jh/jobhistory/logs/node1:8052/c_1/a_1/hadoop/stdout/?start=-4096&end=0" ∧
    (∀ (p : GetTaskAttemptLogsInput) (con nod usr html : String),
      ¬con = "" → ¬nod = "" → ¬usr = "" → searchPre html.data = none →
      jobhistory_get_task_attempt_logs p (.ok (attDetail con nod))
          (.ok (jobDetail usr)) (.ok html) =
        "日志为空或无法解析日志内容。\n\n**日志 URL**: " ++
          logUrlFull LOGS_BASE_URL (_extract_hostname nod ++ ":" ++ NODEMANAGER_PORT)
            con p.attempt_id usr p.log_type.value) ∧
    (∀ (p : GetTaskAttemptLogsPartialInput) (con nod usr html : String),
      ¬con = "" → ¬nod = "" → ¬usr = "" → searchPre html.data = none →
      jobhistory_get_task_attempt_logs_partial p (.ok (attDetail con nod))
          (.ok (jobDetail usr)) (.ok html) =
        "日志为空或无法解析日志内容。\n\n**日志 URL**: " ++
          logUrlRange LOGS_BASE_URL (_extract_hostname nod ++ ":" ++ NODEMANAGER_PORT)
            con p.attempt_id usr p.log_type.value p.start p.end_pos) := by
  refine ⟨?_, ?_, by decide, ?_, ?_⟩
  · intro lb nm cid aid u lt
    simp only [logUrlFull, specLogPath, String.append_assoc]
  · intro lb nm cid aid u lt s e
    simp only [logUrlRange, specLogPath, String.append_assoc]
  · intro p con nod usr html hcon hnod husr hsearch
    have hpre : _extract_pre_content html = "" := by
      simp [_extract_pre_content, hsearch]
    simp only [jobhistory_get_task_attempt_logs, getTaskAttemptLogsBody, runHandler,
      attDetail, jobDetail, Json.pyGetD, Json.pyGet1, jsonLookup, Json.asStr,
      Json.pyStrOf, Except.bind, bind, Option.getD, if_pos, if_true, if_false,
      str_pyTruthy hcon, str_pyTruthy hnod, str_pyTruthy husr, Bool.not_true,
      Bool.false_eq_true, hpre, String.isEmpty]
    simp [hpre, str_pyTruthy hcon, str_pyTruthy hnod, str_pyTruthy husr, pure, Except.pure]
  · intro p con nod usr html hcon hnod husr hsearch
    have hpre : _extract_pre_content html = "" := by
      simp [_extract_pre_content, hsearch]
    simp only [ jobhistory_get_task_attempt_logs_partial, getTaskAttemptLogsPartialBody,
      runHandler, attDetail, jobDetail, Json.pyGetD, Json.pyGet1, jsonLookup,
      Json.asStr, Json.pyStrOf, Except.bind, bind, Option.getD, if_pos, if_true,
      if_false, str_pyTruthy hcon, str_pyTruthy hnod, str_pyTruthy husr,
      Bool.not_true, Bool.false_eq_true, hpre, String.isEmpty]
    simp [hpre, str_pyTruthy hcon, str_pyTruthy hnod, str_pyTruthy husr, pure, Except.pure]


/-- Witness for C1: evaluating both log handlers at concrete inputs, the
returned text embeds the full-mode URL with the fixed byte-range query and
the range-mode URL with the verbatim start=-4096&end=0 query. -/
theorem log_url_construction_witness :
    jobhistory_get_task_attempt_logs cexLogsInput
        (.ok (attDetail "container_1_1_01_000001" "node1.example.com:8042"))
        (.ok (jobDetail "hadoop")) (.ok "<html>no pre</html>") =
      "日志为空或无法解析日志内容。\n\n**日志 URL**: " ++
        logUrlFull LOGS_BASE_URL
          (_extract_hostname "node1.example.com:8042" ++ ":" ++ NODEMANAGER_PORT)
          "container_1_1_01_000001" cexLogsInput.attempt_id "hadoop"
          cexLogsInput.log_type.value ∧
    jobhistory_get_task_attempt_logs_partial cexLogsPartialInput
        (.ok (attDetail "container_1_1_01_000001" "node1.example.com:8042"))
        (.ok (jobDetail "hadoop")) (.ok "<html>no pre</html>") =
      "日志为空或无法解析日志内容。\n\n**日志 URL**: " ++
        logUrlRange LOGS_BASE_URL
          (_extract_hostname "node1.example.com:8042" ++ ":" ++ NODEMANAGER_PORT)
          "container_1_1_01_000001" cexLogsPartialInput.attempt_id "hadoop"
          cexLogsPartialInput.log_type.value cexLogsPartialInput.start
          cexLogsPartialInput.end_pos :=
  ⟨log_url_construction.2.2.2.1 cexLogsInput _ _ _ _
      (by decide) (by decide) (by decide) rfl,
    log_url_construction.2.2.2.2 cexLogsPartialInput _ _ _ _
      (by decide) (by decide) (by decide) rfl⟩


/-- C2: for both log handlers, an attempt detail lacking
`assignedContainerId` yields the container-id error message; one lacking
`nodeHttpAddress` yields the distinct node-address error message; a job
detail lacking `user` yields the user-info error message; each failure
returns the message (never raises) whatever the other fetch outcomes are,
and the three messages are pairwise distinct. -/
theorem log_handlers_missing_info_errors :
    (∀ (p : GetTaskAttemptLogsInput) (nod : String)
        (jf : Except PyExc Json) (hf : Except PyExc String),
      jobhistory_get_task_attempt_logs p (.ok (attDetailNoCon nod)) jf hf =
        containerErrMsg) ∧
    (∀ (p : GetTaskAttemptLogsInput) (con : String)
        (jf : Except PyExc Json) (hf : Except PyExc String), ¬con = "" →
      jobhistory_get_task_attempt_logs p (.ok (attDetailNoNode con)) jf hf =
        nodeErrMsg) ∧
    (∀ (p : GetTaskAttemptLogsInput) (con nod : String)
        (hf : Except PyExc String), ¬con = "" → ¬nod = "" →
      jobhistory_get_task_attempt_logs p (.ok (attDetail con nod))
          (.ok jobDetailNoUser) hf = userErrMsg) ∧
    (∀ (p : GetTaskAttemptLogsPartialInput) (nod : String)
        (jf : Except PyExc Json) (hf : Except PyExc String),
      jobhistory_get_task_attempt_logs_partial p (.ok (attDetailNoCon nod)) jf hf =
        containerErrMsg) ∧
    (∀ (p : GetTaskAttemptLogsPartialInput) (con : String)
        (jf : Except PyExc Json) (hf : Except PyExc String), ¬con = "" →
      jobhistory_get_task_attempt_logs_partial p (.ok (attDetailNoNode con)) jf hf =
        nodeErrMsg) ∧
    (∀ (p : GetTaskAttemptLogsPartialInput) (con nod : String)
        (hf : Except PyExc String), ¬con = "" → ¬nod = "" →
      jobhistory_get_task_attempt_logs_partial p (.ok (attDetail con nod))
          (.ok jobDetailNoUser) hf = userErrMsg) ∧
    containerErrMsg ≠ nodeErrMsg ∧ containerErrMsg ≠ userErrMsg ∧
      nodeErrMsg ≠ userErrMsg := by
  refine ⟨?_, ?_, ?_, ?_, ?_, ?_, by decide, by decide, by decide⟩
  · intro p nod jf hf
    simp [jobhistory_get_task_attempt_logs, getTaskAttemptLogsBody, runHandler,
      attDetailNoCon, Json.pyGetD, Json.pyGet1, jsonLookup, Except.bind, bind,
      Json.pyTruthy, pure, Except.pure]
  · intro p con jf hf hcon
    have hce : con.isEmpty = false := by
      rw [← Bool.not_eq_true, String.isEmpty_iff]; exact hcon
    simp [jobhistory_get_task_attempt_logs, getTaskAttemptLogsBody, runHandler,
      attDetailNoNode, Json.pyGetD, Json.pyGet1, jsonLookup, Except.bind, bind,
      hce, Json.pyTruthy, pure, Except.pure]
  · intro p con nod hf hcon hnod
    have hce : con.isEmpty = false := by
      rw [← Bool.not_eq_true, String.isEmpty_iff]; exact hcon
    have hne : nod.isEmpty = false := by
      rw [← Bool.not_eq_true, String.isEmpty_iff]; exact hnod
    simp [jobhistory_get_task_attempt_logs, getTaskAttemptLogsBody, runHandler,
      attDetail, jobDetailNoUser, Json.pyGetD, Json.pyGet1, jsonLookup,
      Except.bind, bind, hce, hne, Json.pyTruthy,
      pure, Except.pure]
  · intro p nod jf hf
    simp [ jobhistory_get_task_attempt_logs_partial, getTaskAttemptLogsPartialBody,
      runHandler, attDetailNoCon, Json.pyGetD, Json.pyGet1, jsonLookup,
      Except.bind, bind, Json.pyTruthy, pure, Except.pure]
  · intro p con jf hf hcon
    have hce : con.isEmpty = false := by
      rw [← Bool.not_eq_true, String.isEmpty_iff]; exact hcon
    simp [ jobhistory_get_task_attempt_logs_partial, getTaskAttemptLogsPartialBody,
      runHandler, attDetailNoNode, Json.pyGetD, Json.pyGet1, jsonLookup,
      Except.bind, bind, hce, Json.pyTruthy, pure, Except.pure]
  · intro p con nod hf hcon hnod
    have hce : con.isEmpty = false := by
      rw [← Bool.not_eq_true, String.isEmpty_iff]; exact hcon
    have hne : nod.isEmpty = false := by
      rw [← Bool.not_eq_true, String.isEmpty_iff]; exact hnod
    simp [ jobhistory_get_task_attempt_logs_partial, getTaskAttemptLogsPartialBody,
      runHandler, attDetail, jobDetailNoUser, Json.pyGetD, Json.pyGet1,
      jsonLookup, Except.bind, bind, hce, hne,
      Json.pyTruthy, pure, Except.pure]

/-- Witness for C2: at concrete inputs, both handlers return the
node-address error for a detail lacking `nodeHttpAddress` and the
user-info error for a job detail lacking `user`. -/
theorem log_handlers_missing_info_errors_witness :
    jobhistory_get_task_attempt_logs cexLogsInput
        (.ok (attDetailNoNode "container_1_1_01_000001"))
        (.ok (jobDetail "hadoop")) (.ok "<html><pre>x</pre></html>") =
      nodeErrMsg ∧
    jobhistory_get_task_attempt_logs_partial cexLogsPartialInput
        (.ok (attDetail "container_1_1_01_000001" "node1.example.com:8042"))
        (.ok jobDetailNoUser) (.ok "<html><pre>x</pre></html>") =
      userErrMsg :=
  ⟨log_handlers_missing_info_errors.2.1 cexLogsInput _ _ _ (by decide),
    log_handlers_missing_info_errors.2.2.2.2.2.1 cexLogsPartialInput _ _ _
      (by decide) (by decide)⟩


/-- C3: `_handle_error` maps HTTP 404/403/401/500/503 to their dedicated
diagnostic messages and any other status to a generic message embedding
the status code; every tool handler converts an upstream exception at any
fetch stage into exactly that diagnostic string instead of propagating
it. -/
theorem handler_error_conversion :
    handle_error (.httpStatusError 404) =
      "错误：资源未找到。请检查 ID 是否正确，或者该作业/任务可能已被清理。" ∧
    handle_error (.httpStatusError 403) =
      "错误：权限不足，无法访问该资源。请检查访问权限配置。" ∧
    handle_error (.httpStatusError 401) =
      "错误：认证失败。如果启用了安全模式，请检查认证配置。" ∧
    handle_error (.httpStatusError 500) =
      "错误：服务器内部错误。请检查 JobHistory Server 日志。" ∧
    handle_error (.httpStatusError 503) =
      "错误：服务暂时不可用。JobHistory Server 可能正在启动或过载。" ∧
    (∀ c : Nat, ¬c = 404 → ¬c = 403 → ¬c = 401 → ¬c = 500 → ¬c = 503 →
      handle_error (.httpStatusError c) =
        "错误：API 请求失败，HTTP 状态码 " ++ toString c ++ "。") ∧
    (∀ (p : GetJobInput) (e : PyExc),
      jobhistory_get_job p (.error e) = handle_error e) ∧
    (∀ (p : ListJobsInput) (e : PyExc),
      jobhistory_list_jobs p (.error e) = handle_error e) ∧
    (∀ (p : GetTaskAttemptLogsInput) (e : PyExc)
        (jf : Except PyExc Json) (hf : Except PyExc String),
      jobhistory_get_task_attempt_logs p (.error e) jf hf = handle_error e) ∧
    (∀ (p : GetTaskAttemptLogsInput) (e : PyExc) (con nod : String)
        (hf : Except PyExc String), ¬con = "" → ¬nod = "" →
      jobhistory_get_task_attempt_logs p (.ok (attDetail con nod)) (.error e) hf =
        handle_error e) ∧
    (∀ (p : GetTaskAttemptLogsInput) (e : PyExc) (con nod usr : String),
      ¬con = "" → ¬nod = "" → ¬usr = "" →
      jobhistory_get_task_attempt_logs p (.ok (attDetail con nod))
          (.ok (jobDetail usr)) (.error e) = handle_error e) ∧
    (∀ (p : GetTaskAttemptLogsPartialInput) (e : PyExc)
        (jf : Except PyExc Json) (hf : Except PyExc String),
      jobhistory_get_task_attempt_logs_partial p (.error e) jf hf =
        handle_error e) ∧
    (∀ (p : GetTaskAttemptLogsPartialInput) (e : PyExc) (con nod usr : String),
      ¬con = "" → ¬nod = "" → ¬usr = "" →
      jobhistory_get_task_attempt_logs_partial p (.ok (attDetail con nod))
          (.ok (jobDetail usr)) (.error e) = handle_error e) := by
  refine ⟨rfl, rfl, rfl, rfl, rfl, ?_, ?_, ?_, ?_, ?_, ?_, ?_, ?_⟩
  · intro c h4 h3 h1 h5 h53
    simp [handle_error, h4, h3, h1, h5, h53]
  · intro p e
    simp [jobhistory_get_job, getJobBody, runHandler, Except.bind, bind]
  · intro p e
    simp [jobhistory_list_jobs, listJobsBody, runHandler, Except.bind, bind]
  · intro p e jf hf
    simp [jobhistory_get_task_attempt_logs, getTaskAttemptLogsBody, runHandler,
      Except.bind, bind]
  · intro p e con nod hf hcon hnod
    have hce : con.isEmpty = false := by
      rw [← Bool.not_eq_true, String.isEmpty_iff]; exact hcon
    have hne : nod.isEmpty = false := by
      rw [← Bool.not_eq_true, String.isEmpty_iff]; exact hnod
    simp [jobhistory_get_task_attempt_logs, getTaskAttemptLogsBody, runHandler,
      attDetail, Json.pyGetD, Json.pyGet1, jsonLookup, Except.bind, bind,
      hce, hne, Json.pyTruthy, pure, Except.pure]
  · intro p e con nod usr hcon hnod husr
    have hce : con.isEmpty = false := by
      rw [← Bool.not_eq_true, String.isEmpty_iff]; exact hcon
    have hne : nod.isEmpty = false := by
      rw [← Bool.not_eq_true, String.isEmpty_iff]; exact hnod
    have hue : usr.isEmpty = false := by
      rw [← Bool.not_eq_true, String.isEmpty_iff]; exact husr
    simp [jobhistory_get_task_attempt_logs, getTaskAttemptLogsBody, runHandler,
      attDetail, jobDetail, Json.pyGetD, Json.pyGet1, jsonLookup, Json.asStr,
      Except.bind, bind, hce, hne, hue, Json.pyTruthy, pure, Except.pure]
  · intro p e jf hf
    simp [ jobhistory_get_task_attempt_logs_partial, getTaskAttemptLogsPartialBody,
      runHandler, Except.bind, bind]
  · intro p e con nod usr hcon hnod husr
    have hce : con.isEmpty = false := by
      rw [← Bool.not_eq_true, String.isEmpty_iff]; exact hcon
    have hne : nod.isEmpty = false := by
      rw [← Bool.not_eq_true, String.isEmpty_iff]; exact hnod
    have hue : usr.isEmpty = false := by
      rw [← Bool.not_eq_true, String.isEmpty_iff]; exact husr
    simp [ jobhistory_get_task_attempt_logs_partial, getTaskAttemptLogsPartialBody,
      runHandler, attDetail, jobDetail, Json.pyGetD, Json.pyGet1, jsonLookup,
      Json.asStr, Except.bind, bind, hce, hne, hue, Json.pyTruthy, pure,
      Except.pure]

/-- Witness for C3: a 418 status renders the generic message with the
code, and a concrete 404 at the job fetch of the full-logs handler is
converted to the resource-not-found string. -/
theorem handler_error_conversion_witness :
    handle_error (.httpStatusError 418) =
      "错误：API 请求失败，HTTP 状态码 " ++ toString (418 : Nat) ++ "。" ∧
    jobhistory_get_task_attempt_logs cexLogsInput
        (.ok (attDetail "container_1_1_01_000001" "node1.example.com:8042"))
        (.error (.httpStatusError 404)) (.ok "") =
      handle_error (.httpStatusError 404) :=
  ⟨handler_error_conversion.2.2.2.2.2.1 418
      (by decide) (by decide) (by decide) (by decide) (by decide),
    handler_error_conversion.2.2.2.2.2.2.2.2.2.1 cexLogsInput
      (.httpStatusError 404) _ _ _ (by decide) (by decide)⟩


/-- C10: when the upstream jobs list is empty (or the `jobs`/`job` keys
are absent or null), `jobhistory_list_jobs` returns the fixed plain-text
no-jobs string for every input — in particular for `response_format =
json` — and that string is not the JSON rendering of a total-0 object,
because the empty-list check precedes the format branch. -/
theorem empty_jobs_fixed_string :
    (∀ p : ListJobsInput,
      jobhistory_list_jobs p (.ok (.obj [("jobs", .obj [("job", .arr [])])])) =
        "没有找到符合条件的作业。") ∧
    (∀ p : ListJobsInput,
      jobhistory_list_jobs p (.ok (.obj [])) = "没有找到符合条件的作业。") ∧
    (∀ p : ListJobsInput,
      jobhistory_list_jobs p (.ok (.obj [("jobs", .obj [("job", .null)])])) =
        "没有找到符合条件的作业。") ∧
    ¬("没有找到符合条件的作业。" =
        pyDumpsInd 0 (.obj [("total", .num 0), ("jobs", .arr [])])) :=
  ⟨fun _ => rfl, fun _ => rfl, fun _ => rfl, by decide⟩

end JobHistoryMCP
